import Mathlib

/-!
Verification of the AgentCP C++ SDK core against its specification.

Shallow embedding of the relevant source functions:
* `heartbeat_protocol.cpp` — varint codec, UDP message structs, invite handling
* `binary_protocol.cpp`    — WSS binary framing (non-zlib build), CRC-32 table
* `group_client.cpp`       — pending-request correlation, Close, SendRequest
* `message_client.cpp`     — ack-waiter correlation in OnWsMessage / SendAndWaitAck
* `group_operations.cpp`   — ParseGroupUrl, AckMessages, SyncGroup loops
* `cursor_store.cpp`       — LocalCursorStore persistence
* `session_manager.cpp`    — CreateSession member-list construction

Bytes are modelled as `Nat` values `< 256`; machine integers as `Nat`/`Int`
with explicit `% 2^w` where C++ overflow semantics matter.
-/

namespace AgentCP

/-! ## Varint codec (heartbeat_protocol.cpp, EncodeVarint / DecodeVarint) -/

/-- EncodeVarint from heartbeat_protocol.cpp: 7-bit little-endian groups,
continuation bit 0x80 on all but the last byte. -/
def encodeVarint (value : Nat) : List Nat :=
  if _h : value ≥ 0x80 then
    ((value &&& 0x7F) ||| 0x80) :: encodeVarint (value >>> 7)
  else
    [value]
decreasing_by
  simp only [Nat.shiftRight_eq_div_pow]
  exact Nat.div_lt_self (by omega) (by norm_num)

/-- Loop body of DecodeVarint: index `i`, current `shift`, accumulator
`value` (a C++ uint64, so the shifted contribution is truncated mod 2^64).
Exits with bytes_read = 0 and value 0 when the data runs out or 10 bytes
are consumed without a terminating byte. -/
def decodeVarintLoop : List Nat → Nat → Nat → Nat → Nat × Nat
  | [], _, _, _ => (0, 0)
  | b :: rest, i, shift, value =>
    if i < 10 then
      let value2 := value ||| (((b &&& 0x7F) <<< shift) % 2 ^ 64)
      if b &&& 0x80 == 0 then
        (value2, i + 1)
      else
        decodeVarintLoop rest (i + 1) (shift + 7) value2
    else
      (0, 0)

/-- DecodeVarint from heartbeat_protocol.cpp; returns (value, bytes_read). -/
def decodeVarint (data : List Nat) : Nat × Nat :=
  decodeVarintLoop data 0 0 0

/-! ## WSS binary framing (binary_protocol.cpp, non-zlib build) -/

/-- The 256-entry CRC table hard-coded in binary_protocol.cpp for the
non-zlib build (it is not the standard IEEE CRC-32 table). -/
def crc32Table : List Nat := [
  0x00000000,0x77073096,0xEE0E612C,0x990951BA,0x076DC419,0x706AF48F,0xE963A535,0x9E6495A3,
  0x0EDB8832,0x79DCB8A4,0xE0D5E91B,0x97D2D988,0x09B64C2B,0x7EB17CBE,0xE7B82D09,0x90BF1D9F,
  0x1DB71064,0x6AB020F2,0xF3B97148,0x84BE41DE,0x1ADAD47D,0x6DDDE4EB,0xF4D4B551,0x83D385C7,
  0x136C9856,0x646BA8C0,0xFD62F97A,0x8A65C9EC,0x14015C4F,0x63066CD9,0xFA0F3D63,0x8D080DF5,
  0x3B6E20C8,0x4C69105E,0xD56041E4,0xA2677172,0x3C03E4D1,0x4B04D447,0xD20D85FD,0xA50AB56B,
  0x35B5A8FA,0x42B2986C,0xDBBBC9D6,0xACBCF940,0x32D86CE3,0x45DF5C75,0xDCD60DCF,0xABD13D59,
  0x26D930AC,0x51DE003A,0xC8D75180,0xBFD06116,0x21B4F0B5,0x56B3C423,0xCFBA9599,0xB8BDA50F,
  0x2802B89E,0x5F058808,0xC60CD9B2,0xB10BE924,0x2F6F7C87,0x58684C11,0xC1611DAB,0xB6662D3D,
  0x76DC4190,0x01DB7106,0x98D220BC,0xEFD5102A,0x71B18589,0x06B6B51F,0x9FBFE4A5,0xE8B8D433,
  0x7807C9A2,0x0F00F934,0x9609A88E,0xE10E9818,0x7F6A0DBB,0x086D3D2D,0x91646C97,0xE6635C01,
  0x6B6B51F4,0x1C6C6162,0x856530D8,0xF262004E,0x6C0695ED,0x1B01A57B,0x8208F4C1,0xF50FC457,
  0x65B0D9C6,0x12B7E950,0x8BBEB8EA,0xFCB9887C,0x62DD1DDF,0x15DA2D49,0x8CD37CF3,0xFBD44C65,
  0x4DB26158,0x3AB551CE,0xA3BC0074,0xD4BB30E2,0x4ADFA541,0x3DD895D7,0xA4D1C46D,0xD3D6F4FB,
  0x4369E96A,0x346ED9FC,0xAD678846,0xDA60B8D0,0x44042D73,0x33031DE5,0xAA0A4C5F,0xDD0D7822,
  0x5005713C,0x270241AA,0xBE0B1010,0xC90C2086,0x5768B525,0x206F85B3,0xB966D409,0xCE61E49F,
  0x5EDEF90E,0x29D9C998,0xB0D09822,0xC7D7A8B4,0x59B33D17,0x2EB40D81,0xB7BD5C3B,0xC0BA6CAD,
  0xEDB88320,0x9ABFB3B6,0x03B6E20C,0x74B1D29A,0xEAD54739,0x9DD277AF,0x04DB2615,0x73DC1683,
  0xE3630B12,0x94643B84,0x0D6D6A3E,0x7A6A5ACE,0xEE0E363F,0x990F0609,0x00060C0F,0x7701049D,
  0xE0010177,0x97063114,0x0E0F6008,0x710F5050,0xE7097BA7,0x90064B31,0x09077B8B,0x7E006C1D,
  0xED6669C0,0x9A616A56,0x036A1BEC,0x746D0B7A,0xEA237A85,0x9D202013,0x04293F57,0x73263EC1,
  0xE4C11DB7,0x93C42D21,0x0AC4759B,0x7DC3450D,0xE3077AEE,0x94001478,0x0D0945C2,0x7A0E3554,
  0xED063D8A,0x9A011A1C,0x030812A6,0x74052230,0xEA416D93,0x9D405D05,0x0449D4BF,0x734E4429,
  0xA9501698,0xDE57260E,0x477E77B4,0x30794722,0xAE3D3681,0xD93A0617,0x405B57AD,0x3758673B,
  0xA7E1F0AA,0xD0E6C03C,0x47EFB186,0x30E88110,0xAE0CF4B3,0xD90BE425,0x400CB59F,0x370CAE09,
  0xBA03A5FC,0xCD04956A,0x540DC4D0,0x23091B46,0xBD6D88E5,0xCA6AB873,0x536DE9C9,0x2464D85F,
  0xB4D3CBCE,0xC3D4FB58,0x5ADDA8E2,0x2DD2B874,0xB3B6CCDD,0xC4B1BC4B,0x5DB8ACF1,0x2ABF9C67,
  0xDBD7BE81,0xACCDA117,0x35C460AD,0x42C3503B,0xDCC37298,0xABB2420E,0x32B939B4,0x45BE0922,
  0xD5B14AB3,0xA2B67A25,0x3BBF2B9F,0x4CB81B09,0xD2F8ECAA,0xA5FF7C3C,0x3CF68686,0x4BF1B610,
  0xB86D70E5,0xCF6A0073,0x5863B1C9,0x2F64815F,0xB100E4FC,0xC607D46A,0x5F0EE5D0,0x280E9546,
  0xB801C2D7,0xCF06B241,0x580FE3FB,0x2F08D36D,0xB10BC0CE,0xC60C5058,0x5F058CE2,0x28020A74,
  0xC1CDEE0D,0xB6CAD09B,0x2FC39121,0x58C4A1B7,0xC6A0B614,0xB1A78682,0x28AED738,0x5FA9E7AE,
  0xCF10FA3F,0xB817CAA9,0x21109B13,0x5617AB85,0xC87B6E26,0xBF7C5EB0,0x267B0F0A,0x517C3F9C]

/-- One step of the table-driven CRC loop:
crc = table[(crc ^ byte) & 0xFF] ^ (crc >> 8). -/
def crc32Step (crc b : Nat) : Nat :=
  crc32Table.getD ((crc ^^^ b) &&& 0xFF) 0 ^^^ (crc >>> 8)

/-- ComputeCRC32 from binary_protocol.cpp (non-zlib build): fold the table
step from 0xFFFFFFFF and complement the result. -/
def computeCRC32 (data : List Nat) : Nat :=
  (data.foldl crc32Step 0xFFFFFFFF) ^^^ 0xFFFFFFFF

/-- WssBinaryHeader with the defaults from binary_protocol.h. -/
structure WssBinaryHeader where
  magic1 : Nat := 0x4D
  magic2 : Nat := 0x55
  version : Nat := 0x0101
  flags : Nat := 0
  msg_type : Nat := 1
  msg_seq : Nat := 0
  content_type : Nat := 1
  compressed : Nat := 0
  reserved : Nat := 0
  crc32 : Nat := 0
  payload_length : Nat := 0
deriving Repr, DecidableEq

/-- Big-endian u16 byte pair. -/
def writeBE16 (v : Nat) : List Nat :=
  [(v >>> 8) &&& 0xFF, v &&& 0xFF]

/-- Big-endian u32 byte quadruple. -/
def writeBE32 (v : Nat) : List Nat :=
  [(v >>> 24) &&& 0xFF, (v >>> 16) &&& 0xFF, (v >>> 8) &&& 0xFF, v &&& 0xFF]

/-- ReadBE16 on two bytes. -/
def readBE16 (b0 b1 : Nat) : Nat :=
  (b0 <<< 8) ||| b1

/-- ReadBE32 on four bytes. -/
def readBE32 (b0 b1 b2 b3 : Nat) : Nat :=
  (b0 <<< 24) ||| (b1 <<< 16) ||| (b2 <<< 8) ||| b3

/-- SerializeHeader: the 28-byte header layout of binary_protocol.cpp. -/
def serializeHeader (h : WssBinaryHeader) : List Nat :=
  [h.magic1, h.magic2] ++ writeBE16 h.version ++ writeBE32 h.flags ++
  writeBE16 h.msg_type ++ writeBE32 h.msg_seq ++
  [h.content_type, h.compressed] ++ writeBE32 h.reserved ++
  writeBE32 h.crc32 ++ writeBE32 h.payload_length

/-- DeserializeHeader: reads the 28 header bytes back into the struct. -/
def deserializeHeader (d : List Nat) : WssBinaryHeader :=
  { magic1 := d.getD 0 0
    magic2 := d.getD 1 0
    version := readBE16 (d.getD 2 0) (d.getD 3 0)
    flags := readBE32 (d.getD 4 0) (d.getD 5 0) (d.getD 6 0) (d.getD 7 0)
    msg_type := readBE16 (d.getD 8 0) (d.getD 9 0)
    msg_seq := readBE32 (d.getD 10 0) (d.getD 11 0) (d.getD 12 0) (d.getD 13 0)
    content_type := d.getD 14 0
    compressed := d.getD 15 0
    reserved := readBE32 (d.getD 16 0) (d.getD 17 0) (d.getD 18 0) (d.getD 19 0)
    crc32 := readBE32 (d.getD 20 0) (d.getD 21 0) (d.getD 22 0) (d.getD 23 0)
    payload_length := readBE32 (d.getD 24 0) (d.getD 25 0) (d.getD 26 0) (d.getD 27 0) }

/-- EncodeWssBinaryMessage in the non-zlib build: compression is never
available, so compressed = 0 and the payload ships raw; CRC and length are
computed over the shipped payload. -/
def encodeWssBinaryMessage (jsonData : List Nat) (msgSeq : Nat) : List Nat :=
  let header : WssBinaryHeader :=
    { msg_type := 1, msg_seq := msgSeq, content_type := 1, compressed := 0,
      crc32 := computeCRC32 jsonData, payload_length := jsonData.length % 2 ^ 32 }
  serializeHeader header ++ jsonData

/-- ZlibDecompress in the non-zlib build always returns the empty vector. -/
def zlibDecompressUnavailable (_data : List Nat) : List Nat := []

/-- DecodeWssBinaryMessage (non-zlib build): magic, length, CRC and
compressed-flag checks; `none` models the empty-string failure return. -/
def decodeWssBinaryMessage (data : List Nat) : Option (List Nat) :=
  if data.length < 28 then none
  else
    let header := deserializeHeader data
    if header.magic1 ≠ 0x4D ∨ header.magic2 ≠ 0x55 then none
    else
      let payload := data.drop 28
      if payload.length ≠ header.payload_length then none
      else if computeCRC32 payload ≠ header.crc32 then none
      else if header.compressed ≠ 0 ∧ header.compressed ≠ 1 then none
      else if header.compressed = 1 then
        let decompressed := zlibDecompressUnavailable payload
        if decompressed.isEmpty then none else some decompressed
      else some payload

/-- DecodeWssBinaryBuffer (non-zlib build): same checks except that the
compressed flag is never validated — any value other than 1 is treated as
an uncompressed payload. -/
def decodeWssBinaryBuffer (data : List Nat) : Option (WssBinaryHeader × List Nat) :=
  if data.length < 28 then none
  else
    let header := deserializeHeader data
    if header.magic1 ≠ 0x4D ∨ header.magic2 ≠ 0x55 then none
    else
      let payload := data.drop 28
      if payload.length ≠ header.payload_length then none
      else if computeCRC32 payload ≠ header.crc32 then none
      else if header.compressed = 1 then
        let decompressed := zlibDecompressUnavailable payload
        if decompressed.isEmpty then none else some (header, decompressed)
      else some (header, payload)

/-- Replace the byte at index `i` (used to state single-byte mutations). -/
def mutateAt (l : List Nat) (i b : Nat) : List Nat :=
  l.set i b

/-! ## Small association-map helpers shared by the client models.
They mirror `std::map` operations: unique keys, in-place overwrite. -/

/-- Insert-or-overwrite for a string-keyed map (std::map operator[] / assign). -/
def mapSet {β : Type} (m : List (String × β)) (k : String) (v : β) : List (String × β) :=
  match m with
  | [] => [(k, v)]
  | (k', v') :: rest => if k' = k then (k, v) :: rest else (k', v') :: mapSet rest k v

/-- Erase a key (std::map::erase). -/
def mapErase {β : Type} (m : List (String × β)) (k : String) : List (String × β) :=
  m.filter (fun p => p.1 ≠ k)

/-! ## ParseGroupUrl (group_operations.cpp) -/

/-- Helper for std::string::find: first index at or after `i` where `pat`
starts in `l`. -/
def strFindAux : List Char → List Char → Nat → Option Nat
  | [], _, _ => none
  | c :: rest, pat, i =>
    if pat.isPrefixOf (c :: rest) then some i else strFindAux rest pat (i + 1)

/-- std::string::find for a pattern. -/
def strFind (l pat : List Char) : Option Nat :=
  strFindAux l pat 0

/-- std::string::find for a single character. -/
def strFindChar (l : List Char) (ch : Char) : Option Nat :=
  l.findIdx? (fun c => c = ch)

/-- Strip trailing '/' characters (the while-pop_back loop). -/
def stripTrailingSlashes (l : List Char) : List Char :=
  (l.reverse.dropWhile (fun c => c = '/')).reverse

/-- GroupOperations::ParseGroupUrl: scheme / host / path split with query,
fragment and trailing-slash stripping; throws on missing scheme, missing
path, or empty host/path. -/
def parseGroupUrl (url : List Char) : Except String (List Char × List Char) :=
  match strFind url "://".toList with
  | none => .error "invalid group URL (no scheme)"
  | some schemeEnd =>
    let rest := url.drop (schemeEnd + 3)
    match strFindChar rest '/' with
    | none => .error "invalid group URL (no path)"
    | some slashPos =>
      if slashPos = 0 then .error "invalid group URL (no path)"
      else
        let host := rest.take slashPos
        let path0 := rest.drop (slashPos + 1)
        let path1 := match strFindChar path0 '?' with
          | some q => path0.take q
          | none => path0
        let path2 := match strFindChar path1 '#' with
          | some f => path1.take f
          | none => path1
        let path := stripTrailingSlashes path2
        if host.isEmpty ∨ path.isEmpty then
          .error "group URL missing targetAid or groupId"
        else
          .ok (host, path)

/-! ## LocalCursorStore (cursor_store.cpp) -/

/-- CursorEntry with the in-class defaults. -/
structure CursorEntry where
  msg_cursor : Int := 0
  event_cursor : Int := 0
deriving Repr, DecidableEq

/-- LocalCursorStore state: the in-memory map, the dirty flag, whether a
file path was configured, and the persisted file contents (the JSON map). -/
structure LocalCursorStore where
  cursors : List (String × CursorEntry) := []
  dirty : Bool := false
  hasFile : Bool := false
  file : List (String × CursorEntry) := []
deriving Repr, DecidableEq

/-- cursors_[gid]: operator[] default-inserts an entry. -/
def cursorEntryOf (s : LocalCursorStore) (gid : String) : CursorEntry :=
  (s.cursors.lookup gid).getD {}

/-- LocalCursorStore::SaveMsgCursor: update only on strict increase;
operator[] inserts the (possibly default) entry either way. -/
def saveMsgCursor (s : LocalCursorStore) (gid : String) (v : Int) : LocalCursorStore :=
  let entry := cursorEntryOf s gid
  if v > entry.msg_cursor then
    { s with cursors := mapSet s.cursors gid { entry with msg_cursor := v }, dirty := true }
  else
    { s with cursors := mapSet s.cursors gid entry }

/-- LocalCursorStore::SaveEventCursor. -/
def saveEventCursor (s : LocalCursorStore) (gid : String) (v : Int) : LocalCursorStore :=
  let entry := cursorEntryOf s gid
  if v > entry.event_cursor then
    { s with cursors := mapSet s.cursors gid { entry with event_cursor := v }, dirty := true }
  else
    { s with cursors := mapSet s.cursors gid entry }

/-- LocalCursorStore::LoadCursor: (msg, event), (0,0) when absent. -/
def loadCursor (s : LocalCursorStore) (gid : String) : Int × Int :=
  match s.cursors.lookup gid with
  | none => (0, 0)
  | some e => (e.msg_cursor, e.event_cursor)

/-- LocalCursorStore::Flush: write the map to the file only when a path is
configured and the state is dirty. -/
def flushStore (s : LocalCursorStore) : LocalCursorStore :=
  if ¬s.hasFile ∨ ¬s.dirty then s
  else { s with file := s.cursors, dirty := false }

/-- LocalCursorStore::Close flushes. -/
def closeStore (s : LocalCursorStore) : LocalCursorStore :=
  flushStore s

/-- Constructing a LocalCursorStore on an existing file: Load() populates
the in-memory map from the file contents. -/
def reopenStore (file : List (String × CursorEntry)) : LocalCursorStore :=
  { cursors := file, dirty := false, hasFile := true, file := file }

/-! ## ACPGroupClient (group_client.cpp) -/

/-- GroupResponse with the defaults used by ParseResponse. -/
structure GroupResponse where
  action : String := ""
  request_id : String := ""
  code : Int := -1
  group_id : String := ""
  error : String := ""
  data_json : String := ""
deriving Repr, DecidableEq

/-- PendingRequest: result slot plus ready/cancelled flags. -/
structure PendingRequest where
  request_id : String := ""
  response : GroupResponse := {}
  ready : Bool := false
  cancelled : Bool := false
deriving Repr, DecidableEq

/-- Group client state: closed flag and the pending-request map. -/
structure GroupClientState where
  closed : Bool := false
  pending : List (String × PendingRequest) := []
deriving Repr, DecidableEq

/-- Outcome tags for ACPGroupClient::HandleIncoming. -/
inductive HandleOutcome where
  | respConsumed
  | notification
  | messagePush
  | batchPush
  | unhandled
deriving Repr, DecidableEq

/-- ACPGroupClient::HandleIncoming, given the parsed fields of the payload:
`requestId` = data.value("request_id",""), `eventField` = data.value("event",""),
`action` = data.value("action",""), `resp` = ParseResponse(data).
A matching response fulfils the pending entry in place (response stored,
ready set, cv notified) and returns; the entry is NOT erased here. -/
def handleIncoming (pending : List (String × PendingRequest)) (requestId : String)
    (resp : GroupResponse) (eventField : String) (action : String) :
    List (String × PendingRequest) × HandleOutcome :=
  if requestId ≠ "" then
    match pending.lookup requestId with
    | some p =>
      (mapSet pending requestId { p with response := resp, ready := true }, .respConsumed)
    | none =>
      -- logged "NOT found in pending", falls through to the event check
      if eventField ≠ "" then (pending, .notification)
      else if action = "message_push" then (pending, .messagePush)
      else if action = "message_batch_push" then (pending, .batchPush)
      else (pending, .unhandled)
  else
    if eventField ≠ "" then (pending, .notification)
    else if action = "message_push" then (pending, .messagePush)
    else if action = "message_batch_push" then (pending, .batchPush)
    else (pending, .unhandled)

/-- Result classification of ACPGroupClient::SendRequest. -/
inductive SendOutcome where
  | ok (r : GroupResponse)
  | cancelledErr
  | timeoutErr
  | sendFailedErr
  | closedErr
deriving Repr, DecidableEq

/-- The tail of SendRequest after cv.wait_for returns: the entry is erased
by the submitter itself, then cancelled / timeout / success is decided. -/
def waitOutcome (p : PendingRequest) (gotIt : Bool) : SendOutcome :=
  if p.cancelled then .cancelledErr
  else if ¬gotIt then .timeoutErr
  else .ok p.response

/-- How the environment ends the submitter's wait. -/
inductive WaitEnd where
  | fulfilled (resp : GroupResponse)
  | cancelled
  | timedOut
deriving Repr, DecidableEq

/-- ACPGroupClient::SendRequest: closed check, pending registration, send
(which may throw), wait, unconditional erase, outcome. The returned Bool
records whether send_func was invoked. -/
def sendRequest (s : GroupClientState) (reqId : String) (sendOk : Bool) (w : WaitEnd) :
    GroupClientState × SendOutcome × Bool :=
  if s.closed then (s, .closedErr, false)
  else
    let p0 : PendingRequest := { request_id := reqId }
    let s1 : GroupClientState := { s with pending := mapSet s.pending reqId p0 }
    if ¬sendOk then
      ({ s1 with pending := mapErase s1.pending reqId }, .sendFailedErr, true)
    else
      let p : PendingRequest :=
        match w with
        | .fulfilled resp => { p0 with ready := true, response := resp }
        | .cancelled => { p0 with cancelled := true }
        | .timedOut => p0
      let gotIt := p.ready || p.cancelled
      ({ s1 with pending := mapErase s1.pending reqId }, waitOutcome p gotIt, true)

/-- ACPGroupClient::Close: compare-exchange on the closed flag (double
close returns immediately), cancel-and-broadcast every pending entry and
clear the map, then close the cursor store. The third component is the
list of shared pending entries as the blocked submitters observe them. -/
def closeClient (s : GroupClientState) (store : LocalCursorStore) :
    GroupClientState × LocalCursorStore × List (String × PendingRequest) :=
  if s.closed then (s, store, [])
  else
    ({ closed := true, pending := [] }, closeStore store,
     s.pending.map (fun kp => (kp.1, { kp.2 with cancelled := true })))

/-! ## MessageClient ack waiters (message_client.cpp) -/

/-- AckWaiter: request id, expected cmd, result slot, ready flag. -/
structure AckWaiter where
  request_id : String := ""
  cmd : String := ""
  result : String := ""
  ready : Bool := false
deriving Repr, DecidableEq

/-- MessageClient::OnWsMessage, given the envelope cmd and the parsed
request_id (if any) of the data object.  A waiter matching by request_id
and expected cmd is fulfilled in place and woken (not erased); any other
frame is forwarded to the top-level message handler (second component). -/
def onWsMessage (waiters : List (String × AckWaiter)) (cmd : String)
    (dataReqId : Option String) (dataJson : String) :
    List (String × AckWaiter) × Bool :=
  match dataReqId with
  | some rid =>
    match waiters.lookup rid with
    | some w =>
      if w.cmd = cmd then
        (mapSet waiters rid { w with result := dataJson, ready := true }, false)
      else
        (waiters, true)
    | none => (waiters, true)
  | none => (waiters, true)

/-- The tail of MessageClient::SendAndWaitAck after the wait: the waiter
erases its own entry, then returns the result if ready and non-empty. -/
def sendAndWaitAckFinish (waiters : List (String × AckWaiter)) (reqId : String)
    (w : AckWaiter) (gotIt : Bool) : List (String × AckWaiter) × String :=
  (mapErase waiters reqId, if gotIt ∧ w.result ≠ "" then w.result else "")

/-! ## SessionManager::CreateSession member construction (session_manager.cpp) -/

/-- SessionMember record. -/
structure SessionMember where
  agent_id : String
  role : String
  joined_at : Nat := 0
deriving Repr, DecidableEq

/-- The member list CreateSession builds (both the server-ack path and the
local fallback path use the identical loop): the owner first, then every
input member that is neither empty nor the owner, in order, without
deduplication. -/
def createSessionMembers (self : String) (members : List String) (now : Nat) :
    List SessionMember :=
  { agent_id := self, role := "owner", joined_at := now } ::
  (members.filter (fun m => ¬(m = "" ∨ m = self))).map
    (fun m => { agent_id := m, role := "member", joined_at := now })

/-- Number of occurrences of an agent id in a member list. -/
def countAid (l : List SessionMember) (aid : String) : Nat :=
  (l.filter (fun m => m.agent_id = aid)).length

/-! ## Heartbeat invite handling (heartbeat_client.cpp, heartbeat_protocol.cpp) -/

/-- UdpMessageHeader fields. -/
structure UdpMessageHeader where
  message_mask : Nat := 0
  message_seq : Nat := 0
  message_type : Nat := 0
  payload_size : Nat := 0
deriving Repr, DecidableEq

/-- InviteMessageReq (type 259). -/
structure InviteMessageReq where
  header : UdpMessageHeader := {}
  inviter_agent_id : String := ""
  invite_code : String := ""
  invite_code_expire : Int := 0
  session_id : String := ""
  message_server : String := ""
deriving Repr, DecidableEq

/-- InviteMessageResp (type 516); all string fields default to "". -/
structure InviteMessageResp where
  header : UdpMessageHeader := {}
  agent_id : String := ""
  inviter_agent_id : String := ""
  session_id : String := ""
  sign_cookie : Nat := 0
deriving Repr, DecidableEq

/-- The invite branch of HeartbeatClient::ReceiveLoop (type 259): after
invoking the invite callback it builds the response with header type 516,
agent_id := own id, inviter_agent_id := request's inviter, sign_cookie :=
current cookie.  The source never assigns resp.session_id, which therefore
keeps its default "". The Bool records that the registered invite callback
was invoked (before the response is sent). -/
def receiveLoopInvite (selfAgentId : String) (signCookie seq : Nat)
    (req : InviteMessageReq) : Bool × InviteMessageResp :=
  (true,
   { header := { message_mask := 0, message_seq := seq, message_type := 516,
                 payload_size := 0 },
     agent_id := selfAgentId,
     inviter_agent_id := req.inviter_agent_id,
     sign_cookie := signCookie })

/-! ## GroupOperations sync (group_operations.cpp) -/

/-- GroupMessage fields used by the sync path. -/
structure GroupMessage where
  msg_id : Int
  sender : String := ""
  content : String := ""
  content_type : String := ""
  timestamp : Int := 0
deriving Repr, DecidableEq

/-- PullMessagesResp fields used by the sync path. -/
structure PullMessagesResp where
  has_more : Bool := false
  latest_msg_id : Int := 0
  messages : List GroupMessage := []
deriving Repr, DecidableEq

/-- Modelled from the spec: the group AP's `pull_messages` semantics
(§4.10 — explicit-position pull returns the messages with id greater than
`after_msg_id`, at most `limit` of them, and `has_more` when more remain);
the server itself is an external service, not part of this repository. -/
def serverPullMessages (serverMsgs : List GroupMessage) (afterMsgId : Int)
    (lim : Nat) : PullMessagesResp :=
  let rest := serverMsgs.filter (fun m => afterMsgId < m.msg_id)
  { has_more := decide (lim < rest.length),
    latest_msg_id := (serverMsgs.getLast?).elim 0 (fun m => m.msg_id),
    messages := rest.take lim }

/-- GroupOperations::AckMessages: Check throws on a non-zero response code
BEFORE the cursor store is touched; only on success is SaveMsgCursor
called. -/
def ackMessages (respCode : Int) (store : LocalCursorStore) (gid : String)
    (msgId : Int) : Except String LocalCursorStore :=
  if respCode ≠ 0 then .error "ack_messages"
  else .ok (saveMsgCursor store gid msgId)

/-- GroupOperations::SyncMessages loop: pull batches of 50 after the
cursor, emit each non-empty batch, ack its last message id (the server
model acks with code 0), advance, stop when has_more is false.  Returns
(emitted batches, acked ids, final store); `none` = fuel exhausted. -/
def syncMessagesLoop : Nat → List GroupMessage → LocalCursorStore → String → Int →
    Option (List (List GroupMessage) × List Int × LocalCursorStore)
  | 0, _, _, _, _ => none
  | fuel + 1, serverMsgs, store, gid, after =>
    let result := serverPullMessages serverMsgs after 50
    match result.messages.getLast? with
    | none =>
      if result.has_more then syncMessagesLoop fuel serverMsgs store gid after
      else some ([], [], store)
    | some lastm =>
      match ackMessages 0 store gid lastm.msg_id with
      | .error _ => none
      | .ok store2 =>
        if result.has_more then
          match syncMessagesLoop fuel serverMsgs store2 gid lastm.msg_id with
          | some (batches, acks, st) =>
            some (result.messages :: batches, lastm.msg_id :: acks, st)
          | none => none
        else
          some ([result.messages], [lastm.msg_id], store2)

/-- The cursor raise at the start of SyncGroup: current := local when the
locally stored value is strictly greater, i.e. max(server, local). -/
def syncStart (serverCurrent localStored : Int) : Int :=
  if localStored > serverCurrent then localStored else serverCurrent

/-- SyncGroup restricted to the message stream: raise the cursor to
max(server-reported, locally persisted), then run the pull loop. -/
def syncGroupMessages (fuel : Nat) (serverMsgs : List GroupMessage)
    (serverCurrentMsgId : Int) (store : LocalCursorStore) (gid : String) :
    Option (List (List GroupMessage) × List Int × LocalCursorStore) :=
  let afterStart := syncStart serverCurrentMsgId (loadCursor store gid).1
  syncMessagesLoop fuel serverMsgs store gid afterStart

/-! ## Shared lemmas about the association-map helpers -/

theorem lookup_mapSet_self {β : Type} (m : List (String × β)) (k : String) (v : β) :
    (mapSet m k v).lookup k = some v := by
  induction m with
  | nil => simp [mapSet, List.lookup]
  | cons p rest ih =>
    by_cases h : p.1 = k
    · simp [mapSet, h, List.lookup]
    · have hb : (k == p.1) = false := beq_eq_false_iff_ne.mpr (Ne.symm h)
      simpa [mapSet, h, List.lookup, hb] using ih

theorem lookup_mapSet_ne {β : Type} (m : List (String × β)) (k k' : String) (v : β)
    (h : k' ≠ k) : (mapSet m k v).lookup k' = m.lookup k' := by
  have hb : (k' == k) = false := beq_eq_false_iff_ne.mpr h
  induction m with
  | nil => simp [mapSet, List.lookup, hb]
  | cons p rest ih =>
    by_cases hp : p.1 = k
    · subst hp
      simp [mapSet, List.lookup, hb]
    · cases hpk : (k' == p.1) with
      | true => simp [mapSet, hp, List.lookup, hpk]
      | false => simp [mapSet, hp, List.lookup, hpk, ih]

theorem lookup_mapErase_self {β : Type} (m : List (String × β)) (k : String) :
    (mapErase m k).lookup k = none := by
  induction m with
  | nil => rfl
  | cons p rest ih =>
    by_cases h : p.1 = k
    · simpa [mapErase, h] using ih
    · have hb : (k == p.1) = false := beq_eq_false_iff_ne.mpr (Ne.symm h)
      simpa [mapErase, h, List.lookup, hb] using ih

/-! ## C10 — SendRequest always clears its pending entry -/

/-- C10: On every exit path of ACPGroupClient::SendRequest — success,
timeout, cancellation, a throwing send function — the pending map
afterwards has no entry for the call's request id; when the client is
already closed the call throws `closedErr` before registering anything and
before invoking the send function. -/
theorem sendRequest_clears_pending (s : GroupClientState) (reqId : String)
    (sendOk : Bool) (w : WaitEnd) :
    (s.closed = true → sendRequest s reqId sendOk w = (s, .closedErr, false)) ∧
    (s.closed = false →
      ((sendRequest s reqId sendOk w).1.pending.lookup reqId = none ∧
       (sendRequest s reqId sendOk w).2.2 = true)) := by
  constructor
  · intro h
    simp [sendRequest, h]
  · intro h
    by_cases hs : sendOk
    · cases w <;>
        simp [sendRequest, h, hs, lookup_mapErase_self, waitOutcome]
    · simp [sendRequest, h, hs, lookup_mapErase_self]

/-- Witness for C10 at a concrete closed client and a concrete open
client. -/
theorem sendRequest_clears_pending_witness :
    (sendRequest { closed := true } "r1" true .timedOut =
      ({ closed := true }, .closedErr, false)) ∧
    ((sendRequest { closed := false } "r1" true .timedOut).1.pending.lookup "r1"
      = none) :=
  ⟨(sendRequest_clears_pending { closed := true } "r1" true .timedOut).1 rfl,
   ((sendRequest_clears_pending { closed := false } "r1" true .timedOut).2 rfl).1⟩

/-! ## C7 — Close cancels every pending request; double close is a no-op -/

/-- C7: ACPGroupClient::Close sets the closed flag, marks every pending
request cancelled (and broadcasts), closes the cursor store afterwards;
each blocked SendRequest then observes `cancelledErr`, which is distinct
from `timeoutErr`; a second Close changes nothing and cancels nothing. -/
theorem closeClient_spec (s : GroupClientState) (store store2 : LocalCursorStore)
    (h : s.closed = false) :
    ((closeClient s store).1.closed = true) ∧
    ((closeClient s store).2.1 = closeStore store) ∧
    ((closeClient s store).2.2.length = s.pending.length) ∧
    (∀ kp ∈ (closeClient s store).2.2,
      kp.2.cancelled = true ∧
      waitOutcome kp.2 (kp.2.ready || kp.2.cancelled) = SendOutcome.cancelledErr ∧
      waitOutcome kp.2 (kp.2.ready || kp.2.cancelled) ≠ SendOutcome.timeoutErr) ∧
    (closeClient (closeClient s store).1 store2 =
      ((closeClient s store).1, store2, [])) := by
  refine ⟨by simp [closeClient, h], by simp [closeClient, h],
    by simp [closeClient, h], ?_, by simp [closeClient, h]⟩
  intro kp hkp
  simp only [closeClient, h, Bool.false_eq_true, if_false] at hkp
  rcases List.mem_map.mp hkp with ⟨orig, _, rfl⟩
  refine ⟨rfl, ?_, ?_⟩ <;> simp [waitOutcome]

/-- Witness for C7 on a concrete client with one blocked request. -/
theorem closeClient_spec_witness :
    (closeClient { closed := false, pending := [("r1", { request_id := "r1" })] }
        {}).1.closed = true ∧
    (closeClient { closed := false, pending := [("r1", { request_id := "r1" })] }
        {}).2.2.length = 1 :=
  ⟨(closeClient_spec { closed := false, pending := [("r1", { request_id := "r1" })] }
      {} {} rfl).1,
   ((closeClient_spec { closed := false, pending := [("r1", { request_id := "r1" })] }
      {} {} rfl).2.2.1).trans rfl⟩

/-! ## C5 — CreateSession does not deduplicate duplicate member ids -/

/-- C5 (code bug): with caller "test-agent" and member list
["agent-2", "agent-2", "test-agent"] — the exact input of the repository's
own test CreateSessionWithDuplicateMembers, which expects 2 members —
CreateSession records "agent-2" twice, so the resulting list has length 3
and the at-most-once invariant fails. -/
theorem createSession_duplicate_members :
    createSessionMembers "test-agent" ["agent-2", "agent-2", "test-agent"] 0 =
      [{ agent_id := "test-agent", role := "owner", joined_at := 0 },
       { agent_id := "agent-2", role := "member", joined_at := 0 },
       { agent_id := "agent-2", role := "member", joined_at := 0 }] ∧
    countAid (createSessionMembers "test-agent" ["agent-2", "agent-2", "test-agent"] 0)
      "agent-2" = 2 ∧
    (createSessionMembers "test-agent" ["agent-2", "agent-2", "test-agent"] 0).length
      = 3 := by
  refine ⟨?_, ?_, ?_⟩ <;> rfl

/-! ## C8 — the invite response does not echo the session id -/

/-- A concrete parsed invite request (type 259) carrying a session id. -/
def inviteReqExample : InviteMessageReq :=
  { header := { message_type := 259 },
    inviter_agent_id := "alice.aid.net",
    invite_code := "code-1",
    session_id := "sess-1",
    message_server := "msg.aid.net" }

/-- C8 (code bug): on an invite request the receive loop invokes the
callback and sends a type-516 response echoing the inviter agent id, but
the response's session_id is never assigned from the request: it is sent
as "" although the request carried "sess-1". -/
theorem receiveLoopInvite_drops_session_id :
    (receiveLoopInvite "bob.aid.net" 7 1 inviteReqExample).1 = true ∧
    (receiveLoopInvite "bob.aid.net" 7 1 inviteReqExample).2.header.message_type
      = 516 ∧
    (receiveLoopInvite "bob.aid.net" 7 1 inviteReqExample).2.inviter_agent_id
      = "alice.aid.net" ∧
    inviteReqExample.session_id = "sess-1" ∧
    (receiveLoopInvite "bob.aid.net" 7 1 inviteReqExample).2.session_id = "" ∧
    (receiveLoopInvite "bob.aid.net" 7 1 inviteReqExample).2.session_id
      ≠ inviteReqExample.session_id := by
  refine ⟨rfl, rfl, rfl, rfl, rfl, ?_⟩
  intro h
  exact (by decide : ("" : String) ≠ "sess-1") h

/-! ## C1 — ack-waiter / pending-request wake vs. removal order -/

/-- C1 (counterexample): in both clients a matching inbound frame fulfils
the waiter in place — result stored, ready set, cv notified — while the
entry is still in the pending map; it is not removed before the submitter
is woken. -/
theorem waiter_not_removed_before_wake :
    ((onWsMessage [("r1", { request_id := "r1", cmd := "create_session_ack" })]
        "create_session_ack" (some "r1") "DATA").1.lookup "r1" =
      some { request_id := "r1", cmd := "create_session_ack",
             result := "DATA", ready := true }) ∧
    ((handleIncoming [("g1", { request_id := "g1" })] "g1"
        { request_id := "g1", code := 0 } "" "").1.lookup "g1" =
      some { request_id := "g1", response := { request_id := "g1", code := 0 },
             ready := true }) ∧
    ((handleIncoming [("g1", { request_id := "g1" })] "g1"
        { request_id := "g1", code := 0 } "" "").2 = .respConsumed) := by
  refine ⟨rfl, rfl, rfl⟩

/-- C1 (amended): a matching frame fulfils the waiter in place and wakes it
with the entry still in the map (nothing is forwarded to the fallback
handler); the submitter itself erases the entry after waking, and a
duplicate response arriving after that removal finds no waiter: the map is
left unchanged and the frame is forwarded (message client) or not consumed
as a response (group client). A duplicate arriving before the submitter
has erased the entry overwrites the stored result, so the submitter still
returns data at most once. -/
theorem waiter_removed_by_submitter
    (waiters : List (String × AckWaiter)) (rid : String) (w : AckWaiter)
    (cmd d d2 : String)
    (hw : waiters.lookup rid = some w) (hcmd : w.cmd = cmd)
    (pending : List (String × PendingRequest)) (grid : String)
    (p : PendingRequest) (resp resp2 : GroupResponse)
    (hp : pending.lookup grid = some p) (hgrid : grid ≠ "") :
    -- message client: fulfil in place, no forward
    ((onWsMessage waiters cmd (some rid) d).1.lookup rid =
        some { w with result := d, ready := true } ∧
     (onWsMessage waiters cmd (some rid) d).2 = false) ∧
    -- message client: the submitter erases; a later duplicate is forwarded
    ((sendAndWaitAckFinish (onWsMessage waiters cmd (some rid) d).1 rid
        { w with result := d, ready := true } true).1.lookup rid = none ∧
     (∀ ws2 : List (String × AckWaiter), ws2.lookup rid = none →
        onWsMessage ws2 cmd (some rid) d2 = (ws2, true))) ∧
    -- message client: a duplicate before the erase overwrites the result
    ((onWsMessage (onWsMessage waiters cmd (some rid) d).1 cmd (some rid) d2).1.lookup
        rid = some { w with result := d2, ready := true }) ∧
    -- group client: fulfil in place, consumed as a response
    (handleIncoming pending grid resp "" "" =
      (mapSet pending grid { p with response := resp, ready := true },
       .respConsumed)) ∧
    -- group client: the submitter erases; a later duplicate is not consumed
    ((mapErase (mapSet pending grid { p with response := resp, ready := true })
        grid).lookup grid = none ∧
     (∀ pend2 : List (String × PendingRequest), pend2.lookup grid = none →
        (handleIncoming pend2 grid resp2 "" "").1 = pend2 ∧
        (handleIncoming pend2 grid resp2 "" "").2 ≠ .respConsumed)) := by
  refine ⟨⟨?_, ?_⟩, ⟨?_, ?_⟩, ?_, ?_, ⟨?_, ?_⟩⟩
  · simp [onWsMessage, hw, hcmd, lookup_mapSet_self]
  · simp [onWsMessage, hw, hcmd]
  · simp [sendAndWaitAckFinish, lookup_mapErase_self]
  · intro ws2 h2
    simp [onWsMessage, h2]
  · simp [onWsMessage, hw, hcmd, lookup_mapSet_self]
  · simp [handleIncoming, hgrid, hp]
  · exact lookup_mapErase_self _ _
  · intro pend2 h2
    constructor <;> simp [handleIncoming, hgrid, h2]

/-- Witness for C1's amended theorem at a concrete waiter and pending
entry. -/
theorem waiter_removed_by_submitter_witness :
    ((onWsMessage [("r1", { request_id := "r1", cmd := "ack" })] "ack"
        (some "r1") "D1").2 = false) ∧
    ((handleIncoming [("g1", { request_id := "g1" })] "g1" { code := 0 } "" "").2 =
      .respConsumed) :=
  ⟨((waiter_removed_by_submitter
      [("r1", { request_id := "r1", cmd := "ack" })] "r1"
      { request_id := "r1", cmd := "ack" } "ack" "D1" "D2" rfl rfl
      [("g1", { request_id := "g1" })] "g1" { request_id := "g1" }
      { code := 0 } { code := 1 } rfl (by decide)).1).2,
   by
    have h := (waiter_removed_by_submitter
      [("r1", { request_id := "r1", cmd := "ack" })] "r1"
      { request_id := "r1", cmd := "ack" } "ack" "D1" "D2" rfl rfl
      [("g1", { request_id := "g1" })] "g1" { request_id := "g1" }
      { code := 0 } { code := 1 } rfl (by decide)).2.2.2.1
    rw [h]⟩

/-! ## C4 — ParseGroupUrl takes the whole path, not the first segment -/

/-- C4 (counterexample): for a URL with a multi-segment path the returned
group_id is the entire path "a/b", not the first path segment "a". -/
theorem parseGroupUrl_counterexample :
    parseGroupUrl "https://h/a/b".toList = .ok ("h".toList, "a/b".toList) ∧
    ("a/b".toList.takeWhile (fun c => ¬(c = '/')) = "a".toList) ∧
    "a/b".toList ≠ "a".toList := by
  refine ⟨rfl, by decide, by decide⟩

/-- C4 (amended): ParseGroupUrl splits scheme and host, strips query,
fragment and trailing slashes from the remainder, errors when the scheme
marker is absent, when there is no slash after the host or the host is
empty, or when the stripped path is empty; on success host and group_id
are non-empty and group_id is the whole stripped path (equal to the first
path segment only for single-segment paths). -/
theorem parseGroupUrl_spec :
    (∀ url : List Char, strFind url "://".toList = none →
      parseGroupUrl url = .error "invalid group URL (no scheme)") ∧
    (∀ url : List Char, ∀ h g : List Char,
      parseGroupUrl url = .ok (h, g) → h ≠ [] ∧ g ≠ []) ∧
    (parseGroupUrl "https://group.aid.net/aa6f95b5?x=1".toList =
      .ok ("group.aid.net".toList, "aa6f95b5".toList)) ∧
    (parseGroupUrl "https://h/abc/#frag".toList =
      .ok ("h".toList, "abc".toList)) ∧
    (parseGroupUrl "https://h/a/b".toList = .ok ("h".toList, "a/b".toList)) ∧
    (parseGroupUrl "https://h".toList = .error "invalid group URL (no path)") ∧
    (parseGroupUrl "https://h///".toList =
      .error "group URL missing targetAid or groupId") ∧
    (parseGroupUrl "https:///abc".toList = .error "invalid group URL (no path)") := by
  refine ⟨?_, ?_, rfl, rfl, rfl, rfl, rfl, rfl⟩
  · intro url hnone
    have hnone2 : strFind url [':', '/', '/'] = none := hnone
    simp [parseGroupUrl, hnone2]
  · intro url hh g hok
    unfold parseGroupUrl at hok
    split at hok
    · exact absurd hok (by simp)
    · dsimp only at hok
      split at hok
      · exact absurd hok (by simp)
      · split at hok
        · exact absurd hok (by simp)
        · split at hok
          · exact absurd hok (by simp)
          · rename_i hguard
            rw [Except.ok.injEq, Prod.mk.injEq] at hok
            obtain ⟨rfl, rfl⟩ := hok
            push_neg at hguard
            exact ⟨by simpa [List.isEmpty_iff] using hguard.1,
                   by simpa [List.isEmpty_iff] using hguard.2⟩

/-- Witness for C4's amended theorem at concrete URLs. -/
theorem parseGroupUrl_spec_witness :
    parseGroupUrl "no-scheme/abc".toList =
      .error "invalid group URL (no scheme)" ∧
    ("h".toList ≠ ([] : List Char) ∧ "a/b".toList ≠ ([] : List Char)) :=
  ⟨parseGroupUrl_spec.1 "no-scheme/abc".toList (by decide),
   parseGroupUrl_spec.2.1 "https://h/a/b".toList "h".toList "a/b".toList
     parseGroupUrl_spec.2.2.2.2.1⟩

/-! ## C6 — cursor store monotonicity and persistence -/

/-- A sequence of SaveMsgCursor calls. -/
def saveMsgSeq (s : LocalCursorStore) (gid : String) (vs : List Int) :
    LocalCursorStore :=
  vs.foldl (fun st v => saveMsgCursor st gid v) s

/-- The persisted-file view of a group's entry. -/
def fileEntryOf (s : LocalCursorStore) (g : String) : CursorEntry :=
  (s.file.lookup g).getD {}

/-- Invariant relating memory and file: when the store is not dirty, every
group's observable entry agrees with the file (a clean store has nothing
unflushed). -/
def storeConsistent (s : LocalCursorStore) : Prop :=
  s.dirty = false → ∀ g, cursorEntryOf s g = fileEntryOf s g

theorem loadCursor_eq_entry (s : LocalCursorStore) (g : String) :
    loadCursor s g = ((cursorEntryOf s g).msg_cursor, (cursorEntryOf s g).event_cursor) := by
  unfold loadCursor cursorEntryOf
  cases s.cursors.lookup g <;> rfl

theorem cursorEntryOf_saveMsg_self (s : LocalCursorStore) (gid : String) (v : Int) :
    cursorEntryOf (saveMsgCursor s gid v) gid =
      { cursorEntryOf s gid with
        msg_cursor := max (cursorEntryOf s gid).msg_cursor v } := by
  have hcur : (saveMsgCursor s gid v).cursors =
      mapSet s.cursors gid
        (if v > (cursorEntryOf s gid).msg_cursor then { cursorEntryOf s gid with msg_cursor := v } else cursorEntryOf s gid) := by
    unfold saveMsgCursor
    by_cases h : v > (cursorEntryOf s gid).msg_cursor <;> simp [h]
  show ((saveMsgCursor s gid v).cursors.lookup gid).getD {} = _
  rw [hcur, lookup_mapSet_self, Option.getD_some]
  by_cases h : v > (cursorEntryOf s gid).msg_cursor
  · rw [if_pos h, max_eq_right (le_of_lt h)]
  · rw [if_neg h, max_eq_left (by omega : v ≤ (cursorEntryOf s gid).msg_cursor)]

theorem cursorEntryOf_saveMsg_ne (s : LocalCursorStore) (gid g : String) (v : Int)
    (h : g ≠ gid) :
    cursorEntryOf (saveMsgCursor s gid v) g = cursorEntryOf s g := by
  unfold saveMsgCursor
  by_cases hv : v > (cursorEntryOf s gid).msg_cursor <;>
    simp only [hv, if_true, if_false] <;>
    unfold cursorEntryOf <;>
    rw [lookup_mapSet_ne _ _ _ _ h]

theorem cursorEntryOf_saveEvent_self (s : LocalCursorStore) (gid : String) (v : Int) :
    cursorEntryOf (saveEventCursor s gid v) gid =
      { cursorEntryOf s gid with
        event_cursor := max (cursorEntryOf s gid).event_cursor v } := by
  have hcur : (saveEventCursor s gid v).cursors =
      mapSet s.cursors gid
        (if v > (cursorEntryOf s gid).event_cursor then { cursorEntryOf s gid with event_cursor := v } else cursorEntryOf s gid) := by
    unfold saveEventCursor
    by_cases h : v > (cursorEntryOf s gid).event_cursor <;> simp [h]
  show ((saveEventCursor s gid v).cursors.lookup gid).getD {} = _
  rw [hcur, lookup_mapSet_self, Option.getD_some]
  by_cases h : v > (cursorEntryOf s gid).event_cursor
  · rw [if_pos h, max_eq_right (le_of_lt h)]
  · rw [if_neg h, max_eq_left (by omega : v ≤ (cursorEntryOf s gid).event_cursor)]

theorem loadCursor_saveMsgSeq (gid : String) (vs : List Int) :
    ∀ s : LocalCursorStore,
      (loadCursor (saveMsgSeq s gid vs) gid).1 =
        vs.foldl max (loadCursor s gid).1 := by
  induction vs with
  | nil => intro s; rfl
  | cons v rest ih =>
    intro s
    have step := cursorEntryOf_saveMsg_self s gid v
    calc (loadCursor (saveMsgSeq s gid (v :: rest)) gid).1
        = (loadCursor (saveMsgSeq (saveMsgCursor s gid v) gid rest) gid).1 := rfl
      _ = rest.foldl max (loadCursor (saveMsgCursor s gid v) gid).1 :=
          ih (saveMsgCursor s gid v)
      _ = (v :: rest).foldl max (loadCursor s gid).1 := by
          rw [loadCursor_eq_entry, step, loadCursor_eq_entry]
          rfl

theorem saveMsgCursor_consistent (s : LocalCursorStore) (gid : String) (v : Int)
    (h : storeConsistent s) : storeConsistent (saveMsgCursor s gid v) := by
  unfold saveMsgCursor
  by_cases hv : v > (cursorEntryOf s gid).msg_cursor
  · simp only [hv, if_true]
    intro hd
    exact absurd hd (by simp)
  · simp only [hv, if_false]
    intro hd g
    have hd0 : s.dirty = false := hd
    have hall := h hd0
    unfold cursorEntryOf fileEntryOf
    by_cases hg : g = gid
    · subst hg
      rw [lookup_mapSet_self]
      simpa [cursorEntryOf, fileEntryOf] using hall g
    · rw [lookup_mapSet_ne _ _ _ _ hg]
      exact hall g

theorem saveMsgSeq_consistent (gid : String) (vs : List Int) :
    ∀ s : LocalCursorStore, storeConsistent s →
      storeConsistent (saveMsgSeq s gid vs) := by
  induction vs with
  | nil => intro s h; exact h
  | cons v rest ih =>
    intro s h
    exact ih (saveMsgCursor s gid v) (saveMsgCursor_consistent s gid v h)

theorem loadCursor_flush (s : LocalCursorStore) (g : String) :
    loadCursor (flushStore s) g = loadCursor s g := by
  unfold flushStore
  split
  · rfl
  · rfl

theorem reopen_after_close (s : LocalCursorStore) (h : storeConsistent s)
    (hf : s.hasFile = true) (g : String) :
    loadCursor (reopenStore (closeStore s).file) g = loadCursor (closeStore s) g := by
  unfold closeStore flushStore
  split
  · rename_i hcond
    have hd0 : s.dirty = false := by
      rcases hcond with h1 | h2
      · rw [hf] at h1
        exact absurd h1 (by simp)
      · simpa using h2
    rw [loadCursor_eq_entry, loadCursor_eq_entry]
    have hcf := h hd0 g
    have hre : cursorEntryOf (reopenStore s.file) g = fileEntryOf s g := rfl
    rw [hre, ← hcf]
  · rfl

/-- C6 (counterexample): saving the single value −1 into a fresh store
leaves the stored cursor at 0, not at max(v₁…vₙ) = −1: the entry starts at
0 and a smaller incoming value is ignored. -/
theorem cursorStore_counterexample :
    loadCursor (saveMsgSeq {} "g" [-1]) "g" = (0, 0) ∧
    ((0 : Int) ≠ -1) := by
  exact ⟨rfl, by decide⟩

/-- C6 (amended): SaveMsgCursor (resp. SaveEventCursor) is a max-update on
an entry that starts at 0 — the stored value never decreases, a strictly
smaller incoming value is ignored, and after Save(v₁…vₙ) the stored value
is the max-fold of the initial value (0 on a fresh store) and v₁…vₙ, hence
max(v₁…vₙ) whenever some vᵢ ≥ 0; after Flush/Close a store reopened from
the same file reports the same values via LoadCursor. -/
theorem cursorStore_monotone_spec (s : LocalCursorStore) (gid : String)
    (vs : List Int) (v : Int)
    (hcons : storeConsistent s) (hfile : s.hasFile = true) :
    ((loadCursor (saveMsgCursor s gid v) gid).1 = max (loadCursor s gid).1 v) ∧
    ((loadCursor (saveMsgCursor s gid v) gid).2 = (loadCursor s gid).2) ∧
    ((loadCursor (saveEventCursor s gid v) gid).2 = max (loadCursor s gid).2 v) ∧
    ((loadCursor (saveEventCursor s gid v) gid).1 = (loadCursor s gid).1) ∧
    ((loadCursor s gid).1 ≤ (loadCursor (saveMsgCursor s gid v) gid).1) ∧
    ((loadCursor (saveMsgSeq s gid vs) gid).1 =
      vs.foldl max (loadCursor s gid).1) ∧
    ((loadCursor (saveMsgSeq { hasFile := true } gid vs) gid).1 =
      vs.foldl max 0) ∧
    (∀ g2, loadCursor (reopenStore (closeStore (saveMsgSeq s gid vs)).file) g2 =
      loadCursor (closeStore (saveMsgSeq s gid vs)) g2) := by
  refine ⟨?_, ?_, ?_, ?_, ?_, loadCursor_saveMsgSeq gid vs s, ?_, ?_⟩
  · rw [loadCursor_eq_entry, loadCursor_eq_entry, cursorEntryOf_saveMsg_self]
  · rw [loadCursor_eq_entry, loadCursor_eq_entry, cursorEntryOf_saveMsg_self]
  · rw [loadCursor_eq_entry, loadCursor_eq_entry, cursorEntryOf_saveEvent_self]
  · rw [loadCursor_eq_entry, loadCursor_eq_entry, cursorEntryOf_saveEvent_self]
  · rw [loadCursor_eq_entry, loadCursor_eq_entry, cursorEntryOf_saveMsg_self]
    exact le_max_left _ _
  · have := loadCursor_saveMsgSeq gid vs { hasFile := true }
    simpa using this
  · intro g2
    refine reopen_after_close _ ?_ ?_ g2
    · exact saveMsgSeq_consistent gid vs s hcons
    · -- saveMsgSeq does not change hasFile
      have : ∀ vs2 : List Int, ∀ st : LocalCursorStore,
          (saveMsgSeq st gid vs2).hasFile = st.hasFile := by
        intro vs2
        induction vs2 with
        | nil => intro st; rfl
        | cons a rest ih =>
          intro st
          have h1 : (saveMsgCursor st gid a).hasFile = st.hasFile := by
            unfold saveMsgCursor
            by_cases hv : a > (cursorEntryOf st gid).msg_cursor <;> simp [hv]
          calc (saveMsgSeq st gid (a :: rest)).hasFile
              = (saveMsgSeq (saveMsgCursor st gid a) gid rest).hasFile := rfl
            _ = (saveMsgCursor st gid a).hasFile := ih _
            _ = st.hasFile := h1
      rw [this vs s, hfile]

/-- Witness for C6's amended theorem at a concrete save sequence. -/
theorem cursorStore_monotone_spec_witness :
    (loadCursor (saveMsgSeq { hasFile := true } "g" [3, 1, 5]) "g").1 =
      [3, 1, 5].foldl max 0 :=
  (cursorStore_monotone_spec { hasFile := true } "g" [3, 1, 5] 0
    (fun _ _ => rfl) rfl).2.2.2.2.2.2.1

/-! ## C9 — varint round-trip -/

theorem and_127_eq_mod (v : Nat) : v &&& 0x7F = v % 0x80 := by
  have h7 : (0x7F : Nat) = 2 ^ 7 - 1 := by norm_num
  rw [h7, Nat.and_pow_two_sub_one_eq_mod]

theorem lor_shift_eq_add (acc x n : Nat) (hacc : acc < 2 ^ n) :
    acc ||| x <<< n = acc + x * 2 ^ n := by
  rw [Nat.shiftLeft_eq]
  have h := Nat.mul_add_lt_is_or (b := acc) (i := n) hacc x
  rw [Nat.or_comm, Nat.mul_comm x (2 ^ n), ← h]
  ring

set_option maxRecDepth 4000 in
theorem and_128_eq_zero_iff : ∀ b : Nat, b < 256 → ((b &&& 0x80 = 0) ↔ b < 0x80) := by
  decide

theorem encodeVarint_eq_cons (v : Nat) (h : v ≥ 0x80) :
    encodeVarint v = ((v &&& 0x7F) ||| 0x80) :: encodeVarint (v >>> 7) := by
  rw [encodeVarint]
  simp [h]

theorem encodeVarint_eq_single (v : Nat) (h : ¬v ≥ 0x80) :
    encodeVarint v = [v] := by
  rw [encodeVarint]
  simp [h]

theorem encode_cont_byte (v : Nat) : (v &&& 0x7F) ||| 0x80 = v % 0x80 + 0x80 := by
  rw [and_127_eq_mod]
  have hlt : v % 0x80 < 0x80 := Nat.mod_lt _ (by norm_num)
  have h := Nat.mul_add_lt_is_or (b := v % 0x80) (i := 7) hlt 1
  have h128 : (2 : Nat) ^ 7 * 1 = 0x80 := by norm_num
  rw [h128] at h
  rw [Nat.or_comm, ← h]
  ring

theorem encodeVarint_length_pos (v : Nat) : 0 < (encodeVarint v).length := by
  by_cases h : v ≥ 0x80
  · rw [encodeVarint_eq_cons v h]
    simp
  · rw [encodeVarint_eq_single v h]
    simp

theorem encodeVarint_length_le : ∀ k v : Nat, v < 2 ^ (7 * (k + 1)) →
    (encodeVarint v).length ≤ k + 1 := by
  intro k
  induction k with
  | zero =>
    intro v hv
    have hv7 : v < 2 ^ 7 := by
      have : 7 * (0 + 1) = 7 := by norm_num
      rwa [this] at hv
    rw [encodeVarint_eq_single v (by norm_num at hv7; omega)]
    simp
  | succ n ihn =>
    intro v hv
    by_cases hv8 : v ≥ 0x80
    · rw [encodeVarint_eq_cons v hv8]
      simp only [List.length_cons]
      have hdiv : v >>> 7 < 2 ^ (7 * (n + 1)) := by
        rw [Nat.shiftRight_eq_div_pow]
        apply Nat.div_lt_of_lt_mul
        calc v < 2 ^ (7 * (n + 1 + 1)) := hv
          _ = 2 ^ 7 * 2 ^ (7 * (n + 1)) := by ring
      have := ihn (v >>> 7) hdiv
      omega
    · rw [encodeVarint_eq_single v hv8]
      simp

theorem decodeVarintLoop_encode (v : Nat) :
    ∀ i acc : Nat,
      i + (encodeVarint v).length ≤ 10 →
      acc < 2 ^ (7 * i) →
      acc + v * 2 ^ (7 * i) < 2 ^ 64 →
      decodeVarintLoop (encodeVarint v) i (7 * i) acc =
        (acc + v * 2 ^ (7 * i), i + (encodeVarint v).length) := by
  induction v using Nat.strong_induction_on with
  | _ v ih =>
    intro i acc hlen hacc hbound
    by_cases hv : v ≥ 0x80
    · rw [encodeVarint_eq_cons v hv] at hlen ⊢
      have hrestpos := encodeVarint_length_pos (v >>> 7)
      simp only [List.length_cons] at hlen
      have hi10 : i < 10 := by omega
      have hb : (v &&& 0x7F) ||| 0x80 = v % 0x80 + 0x80 := encode_cont_byte v
      have hbyte_and : ((v &&& 0x7F) ||| 0x80) &&& 0x7F = v % 0x80 := by
        rw [hb, and_127_eq_mod]
        omega
      have hshift_lt : (v % 0x80) * 2 ^ (7 * i) < 2 ^ 64 := by
        have h1 : v % 0x80 ≤ v := Nat.mod_le _ _
        have h2 : (v % 0x80) * 2 ^ (7 * i) ≤ v * 2 ^ (7 * i) :=
          Nat.mul_le_mul_right _ h1
        omega
      have hcont : (((v &&& 0x7F) ||| 0x80) &&& 0x80 == 0) = false := by
        apply beq_eq_false_iff_ne.mpr
        intro hz
        have hblt : (v &&& 0x7F) ||| 0x80 < 256 := by
          rw [hb]
          have := Nat.mod_lt v (y := 0x80) (by norm_num)
          omega
        have := (and_128_eq_zero_iff _ hblt).mp hz
        rw [hb] at this
        omega
      have hmod : ((v % 0x80) <<< (7 * i)) % 2 ^ 64 = (v % 0x80) <<< (7 * i) := by
        apply Nat.mod_eq_of_lt
        rw [Nat.shiftLeft_eq]
        exact hshift_lt
      have hval : acc ||| ((((v &&& 0x7F) ||| 0x80) &&& 0x7F) <<< (7 * i)) % 2 ^ 64
          = acc + v % 0x80 * 2 ^ (7 * i) := by
        rw [hbyte_and, hmod, lor_shift_eq_add _ _ _ hacc]
      have hunfold : decodeVarintLoop (((v &&& 0x7F) ||| 0x80) :: encodeVarint (v >>> 7)) i (7 * i) acc =
          if i < 10 then
            (if ((((v &&& 0x7F) ||| 0x80) &&& 0x80 == 0) = true) then
              (acc ||| ((((v &&& 0x7F) ||| 0x80) &&& 0x7F) <<< (7 * i)) % 2 ^ 64, i + 1)
             else
              decodeVarintLoop (encodeVarint (v >>> 7)) (i + 1) (7 * i + 7)
                (acc ||| ((((v &&& 0x7F) ||| 0x80) &&& 0x7F) <<< (7 * i)) % 2 ^ 64))
          else (0, 0) := rfl
      rw [hunfold, if_pos hi10, hcont, if_neg (by simp : ¬(false = true)), hval]
      have hvlt : v >>> 7 < v := by
        rw [Nat.shiftRight_eq_div_pow]
        exact Nat.div_lt_self (by omega) (by norm_num)
      have hsplit : 2 ^ 7 * (v >>> 7) + v % 0x80 = v := by
        rw [Nat.shiftRight_eq_div_pow]
        have := Nat.div_add_mod v (2 ^ 7)
        norm_num at this ⊢
        omega
      have harith : acc + v % 0x80 * 2 ^ (7 * i) + (v >>> 7) * 2 ^ (7 * (i + 1)) =
          acc + v * 2 ^ (7 * i) := by
        have hpow : (2 : Nat) ^ (7 * (i + 1)) = 2 ^ 7 * 2 ^ (7 * i) := by ring
        calc acc + v % 0x80 * 2 ^ (7 * i) + (v >>> 7) * 2 ^ (7 * (i + 1))
            = acc + (2 ^ 7 * (v >>> 7) + v % 0x80) * 2 ^ (7 * i) := by
              rw [hpow]; ring
          _ = acc + v * 2 ^ (7 * i) := by rw [hsplit]
      have hacc2 : acc + v % 0x80 * 2 ^ (7 * i) < 2 ^ (7 * (i + 1)) := by
        have hm : v % 0x80 < 0x80 := Nat.mod_lt _ (by norm_num)
        have hmul : v % 0x80 * 2 ^ (7 * i) ≤ 127 * 2 ^ (7 * i) :=
          Nat.mul_le_mul_right _ (by omega)
        have hpow : (2 : Nat) ^ (7 * (i + 1)) = 128 * 2 ^ (7 * i) := by
          have : (2 : Nat) ^ (7 * (i + 1)) = 2 ^ 7 * 2 ^ (7 * i) := by ring
          rw [this]; norm_num
        omega
      have hbound2 : acc + v % 0x80 * 2 ^ (7 * i) + (v >>> 7) * 2 ^ (7 * (i + 1)) < 2 ^ 64 := by
        rw [harith]; exact hbound
      have hlen2 : (i + 1) + (encodeVarint (v >>> 7)).length ≤ 10 := by omega
      have hrec := ih (v >>> 7) hvlt (i + 1) (acc + v % 0x80 * 2 ^ (7 * i))
        hlen2 hacc2 hbound2
      have hshift7 : 7 * i + 7 = 7 * (i + 1) := by ring
      rw [hshift7, hrec, harith]
      simp only [List.length_cons, Prod.mk.injEq]
      exact ⟨trivial, by omega⟩
    · rw [encodeVarint_eq_single v hv] at hlen ⊢
      simp only [List.length_singleton] at hlen
      have hi10 : i < 10 := by omega
      have hvlt : v < 0x80 := by omega
      have hva : v &&& 0x7F = v := by
        rw [and_127_eq_mod]
        exact Nat.mod_eq_of_lt hvlt
      have hnocont : ((v &&& 0x80) == 0) = true := by
        apply beq_iff_eq.mpr
        exact (and_128_eq_zero_iff v (by omega)).mpr hvlt
      have hshift_lt : v * 2 ^ (7 * i) < 2 ^ 64 := by omega
      have hmod : (v <<< (7 * i)) % 2 ^ 64 = v <<< (7 * i) := by
        apply Nat.mod_eq_of_lt
        rw [Nat.shiftLeft_eq]
        exact hshift_lt
      have hval : acc ||| ((v &&& 0x7F) <<< (7 * i)) % 2 ^ 64
          = acc + v * 2 ^ (7 * i) := by
        rw [hva, hmod, lor_shift_eq_add _ _ _ hacc]
      have hunfold : decodeVarintLoop [v] i (7 * i) acc =
          if i < 10 then
            (if (((v &&& 0x80) == 0) = true) then
              (acc ||| ((v &&& 0x7F) <<< (7 * i)) % 2 ^ 64, i + 1)
             else
              decodeVarintLoop [] (i + 1) (7 * i + 7)
                (acc ||| ((v &&& 0x7F) <<< (7 * i)) % 2 ^ 64))
          else (0, 0) := rfl
      rw [hunfold, if_pos hi10, hnocont, if_pos rfl, hval]
      simp only [List.length_singleton]

/-- C9: for every 64-bit value v, DecodeVarint applied to EncodeVarint(v)
returns v together with a bytes_read equal to the encoding's length. -/
theorem varint_roundtrip (v : Nat) (h : v < 2 ^ 64) :
    decodeVarint (encodeVarint v) = (v, (encodeVarint v).length) := by
  have hlen : (encodeVarint v).length ≤ 10 := by
    have h70 : v < 2 ^ (7 * (9 + 1)) := by
      calc v < 2 ^ 64 := h
        _ ≤ 2 ^ (7 * (9 + 1)) := by norm_num
    simpa using encodeVarint_length_le 9 v h70
  have := decodeVarintLoop_encode v 0 0 (by simpa using hlen)
    (by norm_num) (by simpa using h)
  simpa [decodeVarint] using this

/-- Witness for C9 at v = 2^64 − 1 (the largest uint64, a 10-byte
encoding) and at v = 300. -/
theorem varint_roundtrip_witness :
    decodeVarint (encodeVarint (2 ^ 64 - 1)) =
      (2 ^ 64 - 1, (encodeVarint (2 ^ 64 - 1)).length) ∧
    decodeVarint (encodeVarint 300) = (300, (encodeVarint 300).length) :=
  ⟨varint_roundtrip (2 ^ 64 - 1) (by norm_num),
   varint_roundtrip 300 (by norm_num)⟩

/-! ## C2 — SyncGroup incremental synchronization -/

theorem le_getLast_of_pairwise :
    ∀ t : List GroupMessage, t.Pairwise (fun a b => a.msg_id < b.msg_id) →
      ∀ m, t.getLast? = some m → ∀ x ∈ t, x.msg_id ≤ m.msg_id := by
  intro t
  induction t with
  | nil =>
    intro _ m hm
    simp at hm
  | cons a t ih =>
    intro hp m hm x hx
    cases t with
    | nil =>
      simp at hm
      subst hm
      simp at hx
      subst hx
      exact le_refl _
    | cons b t2 =>
      rw [List.getLast?_cons_cons] at hm
      have hrel := (List.pairwise_cons.mp hp).1
      have hpt := (List.pairwise_cons.mp hp).2
      rcases List.mem_cons.mp hx with rfl | hx2
      · exact le_of_lt (hrel m (List.mem_of_getLast?_eq_some hm))
      · exact ih hpt m hm x hx2

theorem filter_gt_getLast_take (R : List GroupMessage)
    (hp : R.Pairwise (fun a b => a.msg_id < b.msg_id)) (n : Nat)
    (lastm : GroupMessage) (hlast : (R.take n).getLast? = some lastm) :
    R.filter (fun m => lastm.msg_id < m.msg_id) = R.drop n := by
  have htake_pw : (R.take n).Pairwise (fun a b => a.msg_id < b.msg_id) :=
    List.Pairwise.sublist (List.take_sublist n R) hp
  have hsplit : R.take n ++ R.drop n = R := List.take_append_drop n R
  have hp2 : (R.take n ++ R.drop n).Pairwise (fun a b => a.msg_id < b.msg_id) := by
    rw [hsplit]
    exact hp
  have hcross := (List.pairwise_append.mp hp2).2.2
  have hmemtake : lastm ∈ R.take n := List.mem_of_getLast?_eq_some hlast
  conv_lhs => rw [← hsplit]
  rw [List.filter_append]
  have h1 : (R.take n).filter (fun m => lastm.msg_id < m.msg_id) = [] := by
    rw [List.filter_eq_nil_iff]
    intro x hx
    have := le_getLast_of_pairwise _ htake_pw lastm hlast x hx
    simp only [decide_eq_true_eq]
    omega
  have h2 : (R.drop n).filter (fun m => lastm.msg_id < m.msg_id) = R.drop n := by
    rw [List.filter_eq_self]
    intro x hx
    have := hcross lastm hmemtake x hx
    simp only [decide_eq_true_eq]
    omega
  rw [h1, h2, List.nil_append]

theorem filter_after_trans (l : List GroupMessage) (after mid : Int) (h : after < mid) :
    l.filter (fun m => mid < m.msg_id) =
      (l.filter (fun m => after < m.msg_id)).filter (fun m => mid < m.msg_id) := by
  rw [List.filter_filter]
  apply List.filter_congr
  intro x _
  by_cases hx : mid < x.msg_id
  · have hax : after < x.msg_id := lt_trans h hx
    simp [hx, hax]
  · simp [hx]

theorem syncMessagesLoop_correct (serverMsgs : List GroupMessage)
    (hs : serverMsgs.Pairwise (fun a b => a.msg_id < b.msg_id)) :
    ∀ fuel : Nat, ∀ store : LocalCursorStore, ∀ gid : String, ∀ after : Int,
      (serverMsgs.filter (fun m => after < m.msg_id)).length < 50 * fuel →
      ∃ batches acks store2,
        syncMessagesLoop fuel serverMsgs store gid after =
          some (batches, acks, store2) ∧
        batches.flatten = serverMsgs.filter (fun m => after < m.msg_id) ∧
        (∀ b ∈ batches, b ≠ [] ∧ b.length ≤ 50) ∧
        acks = batches.map (fun b => (b.getLastD { msg_id := 0 }).msg_id) ∧
        store2 = saveMsgSeq store gid acks := by
  intro fuel
  induction fuel with
  | zero =>
    intro store gid after h
    omega
  | succ f ihf =>
    intro store gid after h
    have hstep : syncMessagesLoop (f + 1) serverMsgs store gid after =
        (match (serverPullMessages serverMsgs after 50).messages.getLast? with
         | none =>
           if (serverPullMessages serverMsgs after 50).has_more = true then
             syncMessagesLoop f serverMsgs store gid after
           else some ([], [], store)
         | some lastm =>
           if (serverPullMessages serverMsgs after 50).has_more = true then
             match syncMessagesLoop f serverMsgs
                 (saveMsgCursor store gid lastm.msg_id) gid lastm.msg_id with
             | some (batches, acks, st) =>
               some ((serverPullMessages serverMsgs after 50).messages :: batches,
                 lastm.msg_id :: acks, st)
             | none => none
           else
             some ([(serverPullMessages serverMsgs after 50).messages],
               [lastm.msg_id], saveMsgCursor store gid lastm.msg_id)) := rfl
    have hm : (serverPullMessages serverMsgs after 50).messages =
        (serverMsgs.filter (fun m => after < m.msg_id)).take 50 := rfl
    have hh : (serverPullMessages serverMsgs after 50).has_more =
        decide (50 < (serverMsgs.filter (fun m => after < m.msg_id)).length) := rfl
    rw [hm, hh] at hstep
    cases hlast : ((serverMsgs.filter (fun m => after < m.msg_id)).take 50).getLast? with
    | none =>
      have htake_nil : (serverMsgs.filter (fun m => after < m.msg_id)).take 50 = [] := by
        by_contra hne
        have := List.getLast?_isSome.mpr hne
        rw [hlast] at this
        simp at this
      have hR_nil : serverMsgs.filter (fun m => after < m.msg_id) = [] := by
        by_contra hne
        cases hcase : serverMsgs.filter (fun m => after < m.msg_id) with
        | nil => exact hne hcase
        | cons a t =>
          rw [hcase] at htake_nil
          simp [List.take_succ_cons] at htake_nil
      refine ⟨[], [], store, ?_, ?_, ?_, ?_, ?_⟩
      · rw [hstep, hlast]
        dsimp only
        rw [hR_nil]
        simp
      · rw [hR_nil]
        rfl
      · intro b hb
        simp at hb
      · rfl
      · rfl
    | some lastm =>
      have hmemtake : lastm ∈ (serverMsgs.filter (fun m => after < m.msg_id)).take 50 :=
        List.mem_of_getLast?_eq_some hlast
      have hmemR : lastm ∈ serverMsgs.filter (fun m => after < m.msg_id) :=
        (List.take_sublist 50 _).mem hmemtake
      have hafter_lt : after < lastm.msg_id := by
        have := List.of_mem_filter hmemR
        simpa using this
      have hpR : (serverMsgs.filter (fun m => after < m.msg_id)).Pairwise
          (fun a b => a.msg_id < b.msg_id) := List.Pairwise.filter _ hs
      have hdropfilter : serverMsgs.filter (fun m => lastm.msg_id < m.msg_id) =
          (serverMsgs.filter (fun m => after < m.msg_id)).drop 50 := by
        rw [filter_after_trans serverMsgs after lastm.msg_id hafter_lt]
        exact filter_gt_getLast_take _ hpR 50 lastm hlast
      by_cases h50 : 50 < (serverMsgs.filter (fun m => after < m.msg_id)).length
      · -- has_more: recurse after the acked id
        have hlen2 : (serverMsgs.filter (fun m => lastm.msg_id < m.msg_id)).length <
            50 * f := by
          rw [hdropfilter, List.length_drop]
          omega
        obtain ⟨batches2, acks2, store3, heq2, hjoin2, hsz2, hacks2, hstore2⟩ :=
          ihf (saveMsgCursor store gid lastm.msg_id) gid lastm.msg_id hlen2
        refine ⟨(serverMsgs.filter (fun m => after < m.msg_id)).take 50 :: batches2,
          lastm.msg_id :: acks2, store3, ?_, ?_, ?_, ?_, ?_⟩
        · rw [hstep, hlast]
          dsimp only
          rw [if_pos (by simpa using h50), heq2]
        · show _ ++ batches2.flatten = _
          rw [hjoin2, hdropfilter, List.take_append_drop]
        · intro b hb
          rcases List.mem_cons.mp hb with rfl | hb2
          · constructor
            · intro hnil
              rw [hnil] at hlast
              simp at hlast
            · exact List.length_take_le _ _
          · exact hsz2 b hb2
        · simp only [List.map_cons]
          rw [← hacks2]
          congr 1
          rw [List.getLastD_eq_getLast?, hlast]
          rfl
        · rw [hstore2]
          rfl
      · -- last batch
        have htake_all : (serverMsgs.filter (fun m => after < m.msg_id)).take 50 =
            serverMsgs.filter (fun m => after < m.msg_id) :=
          List.take_of_length_le (by omega)
        refine ⟨[(serverMsgs.filter (fun m => after < m.msg_id)).take 50],
          [lastm.msg_id], saveMsgCursor store gid lastm.msg_id, ?_, ?_, ?_, ?_, ?_⟩
        · rw [hstep, hlast]
          dsimp only
          rw [if_neg (by simpa using h50)]
        · show _ ++ List.flatten [] = _
          rw [htake_all]
          simp
        · intro b hb
          simp only [List.mem_singleton] at hb
          subst hb
          constructor
          · intro hnil
            rw [hnil] at hlast
            simp at hlast
          · exact List.length_take_le _ _
        · simp only [List.map_cons, List.map_nil]
          congr 1
          rw [List.getLastD_eq_getLast?, hlast]
          rfl
        · rfl

/-- C2: SyncGroup raises the cursor to max(server-reported, locally
persisted); AckMessages persists only after a successful (code-0) ack and
propagates failure without touching the store; the pull loop delivers, in
batches of at most 50, exactly the messages with id greater than the
starting cursor, each exactly once, acks each batch's last id, and leaves
the cursor at the max-fold of the acked ids; with server ids {1..5} and a
local cursor at 2 it delivers {3,4,5} once, acks 5, and the stored cursor
is 5. -/
theorem syncGroup_spec :
    (∀ serverCurrent localStored : Int,
      syncStart serverCurrent localStored = max serverCurrent localStored) ∧
    (∀ (c : Int) (st : LocalCursorStore) (gid : String) (i : Int), c ≠ 0 →
      ackMessages c st gid i = .error "ack_messages") ∧
    (∀ (st : LocalCursorStore) (gid : String) (i : Int),
      ackMessages 0 st gid i = .ok (saveMsgCursor st gid i)) ∧
    (∀ serverMsgs : List GroupMessage,
      serverMsgs.Pairwise (fun a b => a.msg_id < b.msg_id) →
      ∀ (fuel : Nat) (store : LocalCursorStore) (gid : String) (serverCurrent : Int),
        (serverMsgs.filter (fun m =>
          syncStart serverCurrent (loadCursor store gid).1 < m.msg_id)).length <
            50 * fuel →
        ∃ batches acks store2,
          syncGroupMessages fuel serverMsgs serverCurrent store gid =
            some (batches, acks, store2) ∧
          batches.flatten = serverMsgs.filter (fun m =>
            syncStart serverCurrent (loadCursor store gid).1 < m.msg_id) ∧
          (∀ b ∈ batches, b ≠ [] ∧ b.length ≤ 50) ∧
          acks = batches.map (fun b => (b.getLastD { msg_id := 0 }).msg_id) ∧
          (loadCursor store2 gid).1 = acks.foldl max (loadCursor store gid).1) ∧
    (syncGroupMessages 1
        [{ msg_id := 1 }, { msg_id := 2 }, { msg_id := 3 }, { msg_id := 4 },
         { msg_id := 5 }] 0 (saveMsgCursor { hasFile := true } "g" 2) "g" =
      some ([[{ msg_id := 3 }, { msg_id := 4 }, { msg_id := 5 }]], [5],
        saveMsgCursor (saveMsgCursor { hasFile := true } "g" 2) "g" 5) ∧
     (loadCursor (saveMsgCursor (saveMsgCursor { hasFile := true } "g" 2) "g" 5)
        "g").1 = 5) := by
  refine ⟨?_, ?_, ?_, ?_, by decide, rfl⟩
  · intro a b
    unfold syncStart
    by_cases h : b > a
    · rw [if_pos h, max_eq_right (le_of_lt h)]
    · rw [if_neg h, max_eq_left (by omega)]
  · intro c st gid i hc
    unfold ackMessages
    rw [if_pos hc]
  · intro st gid i
    rfl
  · intro serverMsgs hp fuel store gid serverCurrent hlen
    obtain ⟨batches, acks, store2, heq, hjoin, hsz, hacks, hstore⟩ :=
      syncMessagesLoop_correct serverMsgs hp fuel store gid
        (syncStart serverCurrent (loadCursor store gid).1) hlen
    refine ⟨batches, acks, store2, heq, hjoin, hsz, hacks, ?_⟩
    rw [hstore]
    exact loadCursor_saveMsgSeq gid acks store

/-- Witness for C2 at the concrete scenario and a failing ack code. -/
theorem syncGroup_spec_witness :
    ackMessages 1 {} "g" 5 = .error "ack_messages" ∧
    (∃ batches acks store2,
      syncGroupMessages 1
          [{ msg_id := 1 }, { msg_id := 2 }, { msg_id := 3 }, { msg_id := 4 },
           { msg_id := 5 }] 0 (saveMsgCursor { hasFile := true } "g" 2) "g" =
        some (batches, acks, store2) ∧
      batches.flatten = [({ msg_id := 1 } : GroupMessage), { msg_id := 2 },
          { msg_id := 3 }, { msg_id := 4 }, { msg_id := 5 }].filter (fun m =>
        syncStart 0
          (loadCursor (saveMsgCursor { hasFile := true } "g" 2) "g").1 < m.msg_id) ∧
      (∀ b ∈ batches, b ≠ [] ∧ b.length ≤ 50) ∧
      acks = batches.map (fun b => (b.getLastD { msg_id := 0 }).msg_id) ∧
      (loadCursor store2 "g").1 = acks.foldl max
        (loadCursor (saveMsgCursor { hasFile := true } "g" 2) "g").1) :=
  ⟨syncGroup_spec.2.1 1 {} "g" 5 (by decide),
   syncGroup_spec.2.2.2.1
     [{ msg_id := 1 }, { msg_id := 2 }, { msg_id := 3 }, { msg_id := 4 },
      { msg_id := 5 }] (by decide) 1 (saveMsgCursor { hasFile := true } "g" 2)
     "g" 0 (by decide)⟩

/-! ## C3 — binary frame decode checks and mutation behavior -/

theorem and_255_eq_mod (v : Nat) : v &&& 0xFF = v % 0x100 := by
  have h8 : (0xFF : Nat) = 2 ^ 8 - 1 := by norm_num
  rw [h8, Nat.and_pow_two_sub_one_eq_mod]

theorem xor_right_cancel_nat (a b m : Nat) (h : a ^^^ m = b ^^^ m) : a = b := by
  have h2 := congrArg (fun x => x ^^^ m) h
  simpa [Nat.xor_assoc] using h2

theorem xor_left_cancel_nat (a x y : Nat) (h : a ^^^ x = a ^^^ y) : x = y := by
  have h2 := congrArg (fun z => a ^^^ z) h
  simpa [← Nat.xor_assoc] using h2

set_option maxRecDepth 100000 in
theorem crc32Table_nodup : crc32Table.Nodup := by decide

set_option maxRecDepth 4000 in
theorem crc32Table_length : crc32Table.length = 256 := rfl

set_option maxRecDepth 10000 in
theorem crc32Table_bounded : ∀ x ∈ crc32Table, x < 2 ^ 32 := by decide

theorem getD_mem_of_lt : ∀ (l : List Nat) (i : Nat), i < l.length → ∀ d : Nat,
    l.getD i d ∈ l := by
  intro l
  induction l with
  | nil =>
    intro i h d
    simp at h
  | cons a t ih =>
    intro i h d
    cases i with
    | zero => simp
    | succ j =>
      simp only [List.length_cons] at h
      have := ih j (by omega) d
      simp only [List.getD_cons_succ]
      exact List.mem_cons_of_mem a this

theorem crc32Table_getD_inj (i j : Nat) (hi : i < 256) (hj : j < 256) (hne : i ≠ j) :
    crc32Table.getD i 0 ≠ crc32Table.getD j 0 := by
  rw [List.getD_eq_getElem?_getD, List.getD_eq_getElem?_getD,
    List.getElem?_eq_getElem (by rw [crc32Table_length]; omega),
    List.getElem?_eq_getElem (by rw [crc32Table_length]; omega)]
  simp only [Option.getD_some]
  intro h
  exact hne ((crc32Table_nodup.getElem_inj_iff).mp h)

theorem and255_lt (x : Nat) : x &&& 0xFF < 256 :=
  @Nat.and_lt_two_pow x 0xFF 8 (by norm_num)

theorem digit_lt (x k : Nat) : (x >>> k) &&& 0xFF < 256 :=
  and255_lt _

theorem crc32Step_lt (r b : Nat) (hr : r < 2 ^ 32) : crc32Step r b < 2 ^ 32 := by
  unfold crc32Step
  apply Nat.xor_lt_two_pow
  · have hidx : (r ^^^ b) &&& 0xFF < 256 := and255_lt _
    exact crc32Table_bounded _
      (getD_mem_of_lt _ _ (by rw [crc32Table_length]; omega) 0)
  · rw [Nat.shiftRight_eq_div_pow]
    exact lt_of_le_of_lt (Nat.div_le_self _ _) hr

theorem computeCRC32_lt (data : List Nat) : computeCRC32 data < 2 ^ 32 := by
  unfold computeCRC32
  apply Nat.xor_lt_two_pow _ (by norm_num)
  have hstep : ∀ l : List Nat, ∀ r : Nat, r < 2 ^ 32 → l.foldl crc32Step r < 2 ^ 32 := by
    intro l
    induction l with
    | nil =>
      intro r hr
      simpa using hr
    | cons a t ih =>
      intro r hr
      exact ih _ (crc32Step_lt r a hr)
  exact hstep data 0xFFFFFFFF (by norm_num)

theorem crc32Step_ne_last (r b c : Nat) (hb : b < 256) (hc : c < 256) (hne : b ≠ c) :
    crc32Step r b ≠ crc32Step r c := by
  unfold crc32Step
  intro h
  have h2 := xor_right_cancel_nat _ _ _ h
  have hidx : (r ^^^ b) &&& 0xFF ≠ (r ^^^ c) &&& 0xFF := by
    rw [Nat.and_xor_distrib_right, Nat.and_xor_distrib_right]
    have hbm : b &&& 0xFF = b := by
      rw [and_255_eq_mod]
      exact Nat.mod_eq_of_lt hb
    have hcm : c &&& 0xFF = c := by
      rw [and_255_eq_mod]
      exact Nat.mod_eq_of_lt hc
    rw [hbm, hcm]
    intro heq
    exact hne (xor_left_cancel_nat _ _ _ heq)
  exact crc32Table_getD_inj _ _ (and255_lt _) (and255_lt _) hidx h2

theorem crc_last_byte_ne (q : List Nat) (b c : Nat) (hb : b < 256) (hc : c < 256)
    (hne : b ≠ c) : computeCRC32 (q ++ [b]) ≠ computeCRC32 (q ++ [c]) := by
  unfold computeCRC32
  intro h
  have h2 := xor_right_cancel_nat _ _ _ h
  rw [List.foldl_append, List.foldl_append] at h2
  simp only [List.foldl_cons, List.foldl_nil] at h2
  exact crc32Step_ne_last _ _ _ hb hc hne h2

theorem or_eq_add_of_lt (x y n : Nat) (hy : y < 2 ^ n) :
    x * 2 ^ n ||| y = x * 2 ^ n + y := by
  have h := Nat.mul_add_lt_is_or (b := y) (i := n) hy x
  rw [Nat.mul_comm (2 ^ n) x] at h
  exact h.symm

theorem be32_or_eq_sum (a b c d : Nat) (hb : b < 256) (hc : c < 256) (hd : d < 256) :
    readBE32 a b c d = ((a * 256 + b) * 256 + c) * 256 + d := by
  unfold readBE32
  rw [Nat.shiftLeft_eq, Nat.shiftLeft_eq, Nat.shiftLeft_eq]
  have hb16 : b * 2 ^ 16 < 2 ^ 24 := by
    calc b * 2 ^ 16 < 256 * 2 ^ 16 := mul_lt_mul_of_pos_right hb (by norm_num)
      _ = 2 ^ 24 := by norm_num
  rw [or_eq_add_of_lt a (b * 2 ^ 16) 24 hb16]
  have e1 : a * 2 ^ 24 + b * 2 ^ 16 = (a * 2 ^ 8 + b) * 2 ^ 16 := by ring
  have hc8 : c * 2 ^ 8 < 2 ^ 16 := by
    calc c * 2 ^ 8 < 256 * 2 ^ 8 := mul_lt_mul_of_pos_right hc (by norm_num)
      _ = 2 ^ 16 := by norm_num
  rw [e1, or_eq_add_of_lt _ (c * 2 ^ 8) 16 hc8]
  have e2 : (a * 2 ^ 8 + b) * 2 ^ 16 + c * 2 ^ 8 = ((a * 2 ^ 8 + b) * 2 ^ 8 + c) * 2 ^ 8 := by
    ring
  rw [e2, or_eq_add_of_lt _ d 8 (by norm_num at hd ⊢; omega)]
  ring

theorem readBE32_digits (x : Nat) (hx : x < 2 ^ 32) :
    readBE32 ((x >>> 24) &&& 0xFF) ((x >>> 16) &&& 0xFF) ((x >>> 8) &&& 0xFF)
      (x &&& 0xFF) = x := by
  rw [be32_or_eq_sum _ _ _ _ (digit_lt x 16) (digit_lt x 8) (and255_lt x)]
  simp only [and_255_eq_mod, Nat.shiftRight_eq_div_pow,
    show (2 : Nat) ^ 24 = 16777216 from by norm_num,
    show (2 : Nat) ^ 16 = 65536 from by norm_num,
    show (2 : Nat) ^ 8 = 256 from by norm_num,
    show (0x100 : Nat) = 256 from rfl]
  have hx2 : x < 4294967296 := by
    norm_num at hx
    omega
  omega

theorem readBE32_ne_digit0 (x c : Nat) (hx : x < 2 ^ 32) (hc : c < 256)
    (hne : c ≠ (x >>> 24) &&& 0xFF) :
    readBE32 c ((x >>> 16) &&& 0xFF) ((x >>> 8) &&& 0xFF) (x &&& 0xFF) ≠ x := by
  rw [be32_or_eq_sum _ _ _ _ (digit_lt x 16) (digit_lt x 8) (and255_lt x)]
  simp only [and_255_eq_mod, Nat.shiftRight_eq_div_pow,
    show (2 : Nat) ^ 24 = 16777216 from by norm_num,
    show (2 : Nat) ^ 16 = 65536 from by norm_num,
    show (2 : Nat) ^ 8 = 256 from by norm_num,
    show (0x100 : Nat) = 256 from rfl] at hne ⊢
  have hx2 : x < 4294967296 := by
    norm_num at hx
    omega
  omega

theorem readBE32_ne_digit1 (x c : Nat) (hx : x < 2 ^ 32) (hc : c < 256)
    (hne : c ≠ (x >>> 16) &&& 0xFF) :
    readBE32 ((x >>> 24) &&& 0xFF) c ((x >>> 8) &&& 0xFF) (x &&& 0xFF) ≠ x := by
  rw [be32_or_eq_sum _ _ _ _ hc (digit_lt x 8) (and255_lt x)]
  simp only [and_255_eq_mod, Nat.shiftRight_eq_div_pow,
    show (2 : Nat) ^ 24 = 16777216 from by norm_num,
    show (2 : Nat) ^ 16 = 65536 from by norm_num,
    show (2 : Nat) ^ 8 = 256 from by norm_num,
    show (0x100 : Nat) = 256 from rfl] at hne ⊢
  have hx2 : x < 4294967296 := by
    norm_num at hx
    omega
  omega

theorem readBE32_ne_digit2 (x c : Nat) (hx : x < 2 ^ 32) (hc : c < 256)
    (hne : c ≠ (x >>> 8) &&& 0xFF) :
    readBE32 ((x >>> 24) &&& 0xFF) ((x >>> 16) &&& 0xFF) c (x &&& 0xFF) ≠ x := by
  rw [be32_or_eq_sum _ _ _ _ (digit_lt x 16) hc (and255_lt x)]
  simp only [and_255_eq_mod, Nat.shiftRight_eq_div_pow,
    show (2 : Nat) ^ 24 = 16777216 from by norm_num,
    show (2 : Nat) ^ 16 = 65536 from by norm_num,
    show (2 : Nat) ^ 8 = 256 from by norm_num,
    show (0x100 : Nat) = 256 from rfl] at hne ⊢
  have hx2 : x < 4294967296 := by
    norm_num at hx
    omega
  omega

theorem readBE32_ne_digit3 (x c : Nat) (hx : x < 2 ^ 32) (hc : c < 256)
    (hne : c ≠ x &&& 0xFF) :
    readBE32 ((x >>> 24) &&& 0xFF) ((x >>> 16) &&& 0xFF) ((x >>> 8) &&& 0xFF) c ≠ x := by
  rw [be32_or_eq_sum _ _ _ _ (digit_lt x 16) (digit_lt x 8) hc]
  simp only [and_255_eq_mod, Nat.shiftRight_eq_div_pow,
    show (2 : Nat) ^ 24 = 16777216 from by norm_num,
    show (2 : Nat) ^ 16 = 65536 from by norm_num,
    show (2 : Nat) ^ 8 = 256 from by norm_num,
    show (0x100 : Nat) = 256 from rfl] at hne ⊢
  have hx2 : x < 4294967296 := by
    norm_num at hx
    omega
  omega

theorem decodeMsg_cons (b0 b1 b2 b3 b4 b5 b6 b7 b8 b9 b10 b11 b12 b13 b14 b15 b16 b17 b18 b19 b20 b21 b22 b23 b24 b25 b26 b27 : Nat) (p : List Nat) :
    decodeWssBinaryMessage (b0 :: b1 :: b2 :: b3 :: b4 :: b5 :: b6 :: b7 :: b8 :: b9 :: b10 :: b11 :: b12 :: b13 :: b14 :: b15 :: b16 :: b17 :: b18 :: b19 :: b20 :: b21 :: b22 :: b23 :: b24 :: b25 :: b26 :: b27 :: p) =
      (if b0 ≠ 0x4D ∨ b1 ≠ 0x55 then none
       else if p.length ≠ readBE32 b24 b25 b26 b27 then none
       else if computeCRC32 p ≠ readBE32 b20 b21 b22 b23 then none
       else if b15 ≠ 0 ∧ b15 ≠ 1 then none
       else if b15 = 1 then none
       else some p) := by
  have hlen : (b0 :: b1 :: b2 :: b3 :: b4 :: b5 :: b6 :: b7 :: b8 :: b9 :: b10 :: b11 :: b12 :: b13 :: b14 :: b15 :: b16 :: b17 :: b18 :: b19 :: b20 :: b21 :: b22 :: b23 :: b24 :: b25 :: b26 :: b27 :: p).length = p.length + 28 := by
    simp [List.length_cons]
  unfold decodeWssBinaryMessage
  rw [hlen, if_neg (by omega)]
  rfl

theorem decodeBuf_cons (b0 b1 b2 b3 b4 b5 b6 b7 b8 b9 b10 b11 b12 b13 b14 b15 b16 b17 b18 b19 b20 b21 b22 b23 b24 b25 b26 b27 : Nat) (p : List Nat) :
    decodeWssBinaryBuffer (b0 :: b1 :: b2 :: b3 :: b4 :: b5 :: b6 :: b7 :: b8 :: b9 :: b10 :: b11 :: b12 :: b13 :: b14 :: b15 :: b16 :: b17 :: b18 :: b19 :: b20 :: b21 :: b22 :: b23 :: b24 :: b25 :: b26 :: b27 :: p) =
      (if b0 ≠ 0x4D ∨ b1 ≠ 0x55 then none
       else if p.length ≠ readBE32 b24 b25 b26 b27 then none
       else if computeCRC32 p ≠ readBE32 b20 b21 b22 b23 then none
       else if b15 = 1 then none
       else some (deserializeHeader (b0 :: b1 :: b2 :: b3 :: b4 :: b5 :: b6 :: b7 :: b8 :: b9 :: b10 :: b11 :: b12 :: b13 :: b14 :: b15 :: b16 :: b17 :: b18 :: b19 :: b20 :: b21 :: b22 :: b23 :: b24 :: b25 :: b26 :: b27 :: p), p)) := by
  have hlen : (b0 :: b1 :: b2 :: b3 :: b4 :: b5 :: b6 :: b7 :: b8 :: b9 :: b10 :: b11 :: b12 :: b13 :: b14 :: b15 :: b16 :: b17 :: b18 :: b19 :: b20 :: b21 :: b22 :: b23 :: b24 :: b25 :: b26 :: b27 :: p).length = p.length + 28 := by
    simp [List.length_cons]
  unfold decodeWssBinaryBuffer
  rw [hlen, if_neg (by omega)]
  rfl


theorem set_at_length (q : List Nat) (b c : Nat) : (q ++ [b]).set q.length c = q ++ [c] := by
  induction q with
  | nil => rfl
  | cons a t ih => simp [List.cons_append, List.set_cons_succ, ih]

theorem encode_eq_cons (p : List Nat) (seq : Nat) :
    encodeWssBinaryMessage p seq =
      0x4D :: 0x55 :: 1 :: 1 :: 0 :: 0 :: 0 :: 0 :: 0 :: 1 :: ((seq >>> 24) &&& 0xFF) :: ((seq >>> 16) &&& 0xFF) :: ((seq >>> 8) &&& 0xFF) :: (seq &&& 0xFF) :: 1 :: 0 :: 0 :: 0 :: 0 :: 0 :: ((computeCRC32 p >>> 24) &&& 0xFF) :: ((computeCRC32 p >>> 16) &&& 0xFF) :: ((computeCRC32 p >>> 8) &&& 0xFF) :: (computeCRC32 p &&& 0xFF) :: (((p.length % (2 ^ 32)) >>> 24) &&& 0xFF) :: (((p.length % (2 ^ 32)) >>> 16) &&& 0xFF) :: (((p.length % (2 ^ 32)) >>> 8) &&& 0xFF) :: ((p.length % (2 ^ 32)) &&& 0xFF) :: p := by
  show ([0x4D, 0x55] ++ writeBE16 0x0101 ++ writeBE32 0 ++ writeBE16 1 ++ writeBE32 seq ++
      [1, 0] ++ writeBE32 0 ++ writeBE32 (computeCRC32 p) ++
      writeBE32 (p.length % (2 ^ 32))) ++ p = _
  rfl

set_option maxRecDepth 10000 in
/-- C3 (counterexample): mutating header byte 2 (the version high byte) of an
encoded frame still decodes successfully, because the CRC covers only the
payload and bytes 2–14 and 16–19 of the header are never validated; under the
source's CRC table the payloads [135,2,120,67] and [231,2,120,67] collide, so
a single payload-byte mutation can also decode successfully; and
DecodeWssBinaryBuffer accepts a frame whose compressed flag is 7. -/
theorem frame_mutation_counterexample :
    decodeWssBinaryMessage (mutateAt (encodeWssBinaryMessage [1, 2, 3] 0) 2 0x99) =
      some [1, 2, 3] ∧
    decodeWssBinaryMessage (mutateAt (encodeWssBinaryMessage [135, 2, 120, 67] 0) 28 231) =
      some [231, 2, 120, 67] ∧
    (decodeWssBinaryBuffer (mutateAt (encodeWssBinaryMessage [1, 2, 3] 0) 15 7)).isSome = true := by
  decide

set_option maxHeartbeats 16000000 in
/-- C3 (amended): decoding an encoded frame succeeds, and decode rejects a
mutated magic byte, a mutated CRC-field byte, a mutated payload-length byte,
a compressed flag that is neither 0 nor 1 (message decoder only), and a mutated final
payload byte; but header bytes 2–14 and 16–19 are never validated — the
version byte shown here decodes successfully after any mutation —
and the buffer decoder accepts every compressed value other than 1. -/
theorem frame_decode_spec (p : List Nat) (seq : Nat) (hp : p.length < 2 ^ 32) :
    decodeWssBinaryMessage (encodeWssBinaryMessage p seq) = some p ∧
    (∀ c, c ≠ 0x4D → decodeWssBinaryMessage (mutateAt (encodeWssBinaryMessage p seq) 0 c) = none) ∧
    (∀ c, c ≠ 0x55 → decodeWssBinaryMessage (mutateAt (encodeWssBinaryMessage p seq) 1 c) = none) ∧
    (∀ c, c < 256 → c ≠ ((computeCRC32 p >>> 24) &&& 0xFF) →
      decodeWssBinaryMessage (mutateAt (encodeWssBinaryMessage p seq) 20 c) = none) ∧
    (∀ c, c < 256 → c ≠ ((computeCRC32 p >>> 16) &&& 0xFF) →
      decodeWssBinaryMessage (mutateAt (encodeWssBinaryMessage p seq) 21 c) = none) ∧
    (∀ c, c < 256 → c ≠ ((computeCRC32 p >>> 8) &&& 0xFF) →
      decodeWssBinaryMessage (mutateAt (encodeWssBinaryMessage p seq) 22 c) = none) ∧
    (∀ c, c < 256 → c ≠ (computeCRC32 p &&& 0xFF) →
      decodeWssBinaryMessage (mutateAt (encodeWssBinaryMessage p seq) 23 c) = none) ∧
    (∀ c, c < 256 → c ≠ (((p.length % (2 ^ 32)) >>> 24) &&& 0xFF) →
      decodeWssBinaryMessage (mutateAt (encodeWssBinaryMessage p seq) 24 c) = none) ∧
    (∀ c, c < 256 → c ≠ (((p.length % (2 ^ 32)) >>> 16) &&& 0xFF) →
      decodeWssBinaryMessage (mutateAt (encodeWssBinaryMessage p seq) 25 c) = none) ∧
    (∀ c, c < 256 → c ≠ (((p.length % (2 ^ 32)) >>> 8) &&& 0xFF) →
      decodeWssBinaryMessage (mutateAt (encodeWssBinaryMessage p seq) 26 c) = none) ∧
    (∀ c, c < 256 → c ≠ ((p.length % (2 ^ 32)) &&& 0xFF) →
      decodeWssBinaryMessage (mutateAt (encodeWssBinaryMessage p seq) 27 c) = none) ∧
    (∀ c, c ≠ 0 → c ≠ 1 → decodeWssBinaryMessage (mutateAt (encodeWssBinaryMessage p seq) 15 c) = none) ∧
    (∀ c, c ≠ 1 → decodeWssBinaryBuffer (mutateAt (encodeWssBinaryMessage p seq) 15 c) =
      some (deserializeHeader (mutateAt (encodeWssBinaryMessage p seq) 15 c), p)) ∧
    (∀ c, decodeWssBinaryMessage (mutateAt (encodeWssBinaryMessage p seq) 2 c) = some p) ∧
    (∀ q b c, p = q ++ [b] → b < 256 → c < 256 → c ≠ b →
      decodeWssBinaryMessage (mutateAt (encodeWssBinaryMessage p seq) (q.length + 28) c) = none) := by
  have hC : computeCRC32 p < 2 ^ 32 := computeCRC32_lt p
  have hLlt : p.length % 2 ^ 32 < 2 ^ 32 := Nat.mod_lt _ (by norm_num)
  have hL : p.length % 2 ^ 32 = p.length := Nat.mod_eq_of_lt hp
  refine ⟨?_, ?_, ?_, ?_, ?_, ?_, ?_, ?_, ?_, ?_, ?_, ?_, ?_, ?_, ?_⟩
  · rw [encode_eq_cons, decodeMsg_cons, if_neg (by simp), if_neg (by rw [readBE32_digits _ hLlt, hL]; exact fun h => h rfl), if_neg (by rw [readBE32_digits _ hC]; exact fun h => h rfl)]
    simp
  · intro c hc
    rw [encode_eq_cons]
    show decodeWssBinaryMessage (c :: 0x55 :: 1 :: 1 :: 0 :: 0 :: 0 :: 0 :: 0 :: 1 :: ((seq >>> 24) &&& 0xFF) :: ((seq >>> 16) &&& 0xFF) :: ((seq >>> 8) &&& 0xFF) :: (seq &&& 0xFF) :: 1 :: 0 :: 0 :: 0 :: 0 :: 0 :: ((computeCRC32 p >>> 24) &&& 0xFF) :: ((computeCRC32 p >>> 16) &&& 0xFF) :: ((computeCRC32 p >>> 8) &&& 0xFF) :: (computeCRC32 p &&& 0xFF) :: (((p.length % (2 ^ 32)) >>> 24) &&& 0xFF) :: (((p.length % (2 ^ 32)) >>> 16) &&& 0xFF) :: (((p.length % (2 ^ 32)) >>> 8) &&& 0xFF) :: ((p.length % (2 ^ 32)) &&& 0xFF) :: p) = none
    rw [decodeMsg_cons, if_pos (Or.inl hc)]
  · intro c hc
    rw [encode_eq_cons]
    show decodeWssBinaryMessage (0x4D :: c :: 1 :: 1 :: 0 :: 0 :: 0 :: 0 :: 0 :: 1 :: ((seq >>> 24) &&& 0xFF) :: ((seq >>> 16) &&& 0xFF) :: ((seq >>> 8) &&& 0xFF) :: (seq &&& 0xFF) :: 1 :: 0 :: 0 :: 0 :: 0 :: 0 :: ((computeCRC32 p >>> 24) &&& 0xFF) :: ((computeCRC32 p >>> 16) &&& 0xFF) :: ((computeCRC32 p >>> 8) &&& 0xFF) :: (computeCRC32 p &&& 0xFF) :: (((p.length % (2 ^ 32)) >>> 24) &&& 0xFF) :: (((p.length % (2 ^ 32)) >>> 16) &&& 0xFF) :: (((p.length % (2 ^ 32)) >>> 8) &&& 0xFF) :: ((p.length % (2 ^ 32)) &&& 0xFF) :: p) = none
    rw [decodeMsg_cons, if_pos (Or.inr hc)]
  · intro c hc hcne
    rw [encode_eq_cons]
    show decodeWssBinaryMessage (0x4D :: 0x55 :: 1 :: 1 :: 0 :: 0 :: 0 :: 0 :: 0 :: 1 :: ((seq >>> 24) &&& 0xFF) :: ((seq >>> 16) &&& 0xFF) :: ((seq >>> 8) &&& 0xFF) :: (seq &&& 0xFF) :: 1 :: 0 :: 0 :: 0 :: 0 :: 0 :: c :: ((computeCRC32 p >>> 16) &&& 0xFF) :: ((computeCRC32 p >>> 8) &&& 0xFF) :: (computeCRC32 p &&& 0xFF) :: (((p.length % (2 ^ 32)) >>> 24) &&& 0xFF) :: (((p.length % (2 ^ 32)) >>> 16) &&& 0xFF) :: (((p.length % (2 ^ 32)) >>> 8) &&& 0xFF) :: ((p.length % (2 ^ 32)) &&& 0xFF) :: p) = none
    rw [decodeMsg_cons, if_neg (by simp), if_neg (by rw [readBE32_digits _ hLlt, hL]; exact fun h => h rfl),
      if_pos (Ne.symm (readBE32_ne_digit0 _ c hC hc hcne))]
  · intro c hc hcne
    rw [encode_eq_cons]
    show decodeWssBinaryMessage (0x4D :: 0x55 :: 1 :: 1 :: 0 :: 0 :: 0 :: 0 :: 0 :: 1 :: ((seq >>> 24) &&& 0xFF) :: ((seq >>> 16) &&& 0xFF) :: ((seq >>> 8) &&& 0xFF) :: (seq &&& 0xFF) :: 1 :: 0 :: 0 :: 0 :: 0 :: 0 :: ((computeCRC32 p >>> 24) &&& 0xFF) :: c :: ((computeCRC32 p >>> 8) &&& 0xFF) :: (computeCRC32 p &&& 0xFF) :: (((p.length % (2 ^ 32)) >>> 24) &&& 0xFF) :: (((p.length % (2 ^ 32)) >>> 16) &&& 0xFF) :: (((p.length % (2 ^ 32)) >>> 8) &&& 0xFF) :: ((p.length % (2 ^ 32)) &&& 0xFF) :: p) = none
    rw [decodeMsg_cons, if_neg (by simp), if_neg (by rw [readBE32_digits _ hLlt, hL]; exact fun h => h rfl),
      if_pos (Ne.symm (readBE32_ne_digit1 _ c hC hc hcne))]
  · intro c hc hcne
    rw [encode_eq_cons]
    show decodeWssBinaryMessage (0x4D :: 0x55 :: 1 :: 1 :: 0 :: 0 :: 0 :: 0 :: 0 :: 1 :: ((seq >>> 24) &&& 0xFF) :: ((seq >>> 16) &&& 0xFF) :: ((seq >>> 8) &&& 0xFF) :: (seq &&& 0xFF) :: 1 :: 0 :: 0 :: 0 :: 0 :: 0 :: ((computeCRC32 p >>> 24) &&& 0xFF) :: ((computeCRC32 p >>> 16) &&& 0xFF) :: c :: (computeCRC32 p &&& 0xFF) :: (((p.length % (2 ^ 32)) >>> 24) &&& 0xFF) :: (((p.length % (2 ^ 32)) >>> 16) &&& 0xFF) :: (((p.length % (2 ^ 32)) >>> 8) &&& 0xFF) :: ((p.length % (2 ^ 32)) &&& 0xFF) :: p) = none
    rw [decodeMsg_cons, if_neg (by simp), if_neg (by rw [readBE32_digits _ hLlt, hL]; exact fun h => h rfl),
      if_pos (Ne.symm (readBE32_ne_digit2 _ c hC hc hcne))]
  · intro c hc hcne
    rw [encode_eq_cons]
    show decodeWssBinaryMessage (0x4D :: 0x55 :: 1 :: 1 :: 0 :: 0 :: 0 :: 0 :: 0 :: 1 :: ((seq >>> 24) &&& 0xFF) :: ((seq >>> 16) &&& 0xFF) :: ((seq >>> 8) &&& 0xFF) :: (seq &&& 0xFF) :: 1 :: 0 :: 0 :: 0 :: 0 :: 0 :: ((computeCRC32 p >>> 24) &&& 0xFF) :: ((computeCRC32 p >>> 16) &&& 0xFF) :: ((computeCRC32 p >>> 8) &&& 0xFF) :: c :: (((p.length % (2 ^ 32)) >>> 24) &&& 0xFF) :: (((p.length % (2 ^ 32)) >>> 16) &&& 0xFF) :: (((p.length % (2 ^ 32)) >>> 8) &&& 0xFF) :: ((p.length % (2 ^ 32)) &&& 0xFF) :: p) = none
    rw [decodeMsg_cons, if_neg (by simp), if_neg (by rw [readBE32_digits _ hLlt, hL]; exact fun h => h rfl),
      if_pos (Ne.symm (readBE32_ne_digit3 _ c hC hc hcne))]
  · intro c hc hcne
    rw [encode_eq_cons]
    show decodeWssBinaryMessage (0x4D :: 0x55 :: 1 :: 1 :: 0 :: 0 :: 0 :: 0 :: 0 :: 1 :: ((seq >>> 24) &&& 0xFF) :: ((seq >>> 16) &&& 0xFF) :: ((seq >>> 8) &&& 0xFF) :: (seq &&& 0xFF) :: 1 :: 0 :: 0 :: 0 :: 0 :: 0 :: ((computeCRC32 p >>> 24) &&& 0xFF) :: ((computeCRC32 p >>> 16) &&& 0xFF) :: ((computeCRC32 p >>> 8) &&& 0xFF) :: (computeCRC32 p &&& 0xFF) :: c :: (((p.length % (2 ^ 32)) >>> 16) &&& 0xFF) :: (((p.length % (2 ^ 32)) >>> 8) &&& 0xFF) :: ((p.length % (2 ^ 32)) &&& 0xFF) :: p) = none
    rw [decodeMsg_cons, if_neg (by simp),
      if_pos (by intro h; exact readBE32_ne_digit0 _ c hLlt hc hcne (h.symm.trans hL.symm))]
  · intro c hc hcne
    rw [encode_eq_cons]
    show decodeWssBinaryMessage (0x4D :: 0x55 :: 1 :: 1 :: 0 :: 0 :: 0 :: 0 :: 0 :: 1 :: ((seq >>> 24) &&& 0xFF) :: ((seq >>> 16) &&& 0xFF) :: ((seq >>> 8) &&& 0xFF) :: (seq &&& 0xFF) :: 1 :: 0 :: 0 :: 0 :: 0 :: 0 :: ((computeCRC32 p >>> 24) &&& 0xFF) :: ((computeCRC32 p >>> 16) &&& 0xFF) :: ((computeCRC32 p >>> 8) &&& 0xFF) :: (computeCRC32 p &&& 0xFF) :: (((p.length % (2 ^ 32)) >>> 24) &&& 0xFF) :: c :: (((p.length % (2 ^ 32)) >>> 8) &&& 0xFF) :: ((p.length % (2 ^ 32)) &&& 0xFF) :: p) = none
    rw [decodeMsg_cons, if_neg (by simp),
      if_pos (by intro h; exact readBE32_ne_digit1 _ c hLlt hc hcne (h.symm.trans hL.symm))]
  · intro c hc hcne
    rw [encode_eq_cons]
    show decodeWssBinaryMessage (0x4D :: 0x55 :: 1 :: 1 :: 0 :: 0 :: 0 :: 0 :: 0 :: 1 :: ((seq >>> 24) &&& 0xFF) :: ((seq >>> 16) &&& 0xFF) :: ((seq >>> 8) &&& 0xFF) :: (seq &&& 0xFF) :: 1 :: 0 :: 0 :: 0 :: 0 :: 0 :: ((computeCRC32 p >>> 24) &&& 0xFF) :: ((computeCRC32 p >>> 16) &&& 0xFF) :: ((computeCRC32 p >>> 8) &&& 0xFF) :: (computeCRC32 p &&& 0xFF) :: (((p.length % (2 ^ 32)) >>> 24) &&& 0xFF) :: (((p.length % (2 ^ 32)) >>> 16) &&& 0xFF) :: c :: ((p.length % (2 ^ 32)) &&& 0xFF) :: p) = none
    rw [decodeMsg_cons, if_neg (by simp),
      if_pos (by intro h; exact readBE32_ne_digit2 _ c hLlt hc hcne (h.symm.trans hL.symm))]
  · intro c hc hcne
    rw [encode_eq_cons]
    show decodeWssBinaryMessage (0x4D :: 0x55 :: 1 :: 1 :: 0 :: 0 :: 0 :: 0 :: 0 :: 1 :: ((seq >>> 24) &&& 0xFF) :: ((seq >>> 16) &&& 0xFF) :: ((seq >>> 8) &&& 0xFF) :: (seq &&& 0xFF) :: 1 :: 0 :: 0 :: 0 :: 0 :: 0 :: ((computeCRC32 p >>> 24) &&& 0xFF) :: ((computeCRC32 p >>> 16) &&& 0xFF) :: ((computeCRC32 p >>> 8) &&& 0xFF) :: (computeCRC32 p &&& 0xFF) :: (((p.length % (2 ^ 32)) >>> 24) &&& 0xFF) :: (((p.length % (2 ^ 32)) >>> 16) &&& 0xFF) :: (((p.length % (2 ^ 32)) >>> 8) &&& 0xFF) :: c :: p) = none
    rw [decodeMsg_cons, if_neg (by simp),
      if_pos (by intro h; exact readBE32_ne_digit3 _ c hLlt hc hcne (h.symm.trans hL.symm))]
  · intro c hc0 hc1
    rw [encode_eq_cons]
    show decodeWssBinaryMessage (0x4D :: 0x55 :: 1 :: 1 :: 0 :: 0 :: 0 :: 0 :: 0 :: 1 :: ((seq >>> 24) &&& 0xFF) :: ((seq >>> 16) &&& 0xFF) :: ((seq >>> 8) &&& 0xFF) :: (seq &&& 0xFF) :: 1 :: c :: 0 :: 0 :: 0 :: 0 :: ((computeCRC32 p >>> 24) &&& 0xFF) :: ((computeCRC32 p >>> 16) &&& 0xFF) :: ((computeCRC32 p >>> 8) &&& 0xFF) :: (computeCRC32 p &&& 0xFF) :: (((p.length % (2 ^ 32)) >>> 24) &&& 0xFF) :: (((p.length % (2 ^ 32)) >>> 16) &&& 0xFF) :: (((p.length % (2 ^ 32)) >>> 8) &&& 0xFF) :: ((p.length % (2 ^ 32)) &&& 0xFF) :: p) = none
    rw [decodeMsg_cons, if_neg (by simp), if_neg (by rw [readBE32_digits _ hLlt, hL]; exact fun h => h rfl), if_neg (by rw [readBE32_digits _ hC]; exact fun h => h rfl),
      if_pos ⟨hc0, hc1⟩]
  · intro c hc1
    rw [encode_eq_cons]
    show decodeWssBinaryBuffer (0x4D :: 0x55 :: 1 :: 1 :: 0 :: 0 :: 0 :: 0 :: 0 :: 1 :: ((seq >>> 24) &&& 0xFF) :: ((seq >>> 16) &&& 0xFF) :: ((seq >>> 8) &&& 0xFF) :: (seq &&& 0xFF) :: 1 :: c :: 0 :: 0 :: 0 :: 0 :: ((computeCRC32 p >>> 24) &&& 0xFF) :: ((computeCRC32 p >>> 16) &&& 0xFF) :: ((computeCRC32 p >>> 8) &&& 0xFF) :: (computeCRC32 p &&& 0xFF) :: (((p.length % (2 ^ 32)) >>> 24) &&& 0xFF) :: (((p.length % (2 ^ 32)) >>> 16) &&& 0xFF) :: (((p.length % (2 ^ 32)) >>> 8) &&& 0xFF) :: ((p.length % (2 ^ 32)) &&& 0xFF) :: p) =
      some (deserializeHeader (0x4D :: 0x55 :: 1 :: 1 :: 0 :: 0 :: 0 :: 0 :: 0 :: 1 :: ((seq >>> 24) &&& 0xFF) :: ((seq >>> 16) &&& 0xFF) :: ((seq >>> 8) &&& 0xFF) :: (seq &&& 0xFF) :: 1 :: c :: 0 :: 0 :: 0 :: 0 :: ((computeCRC32 p >>> 24) &&& 0xFF) :: ((computeCRC32 p >>> 16) &&& 0xFF) :: ((computeCRC32 p >>> 8) &&& 0xFF) :: (computeCRC32 p &&& 0xFF) :: (((p.length % (2 ^ 32)) >>> 24) &&& 0xFF) :: (((p.length % (2 ^ 32)) >>> 16) &&& 0xFF) :: (((p.length % (2 ^ 32)) >>> 8) &&& 0xFF) :: ((p.length % (2 ^ 32)) &&& 0xFF) :: p), p)
    rw [decodeBuf_cons, if_neg (by simp), if_neg (by rw [readBE32_digits _ hLlt, hL]; exact fun h => h rfl), if_neg (by rw [readBE32_digits _ hC]; exact fun h => h rfl), if_neg hc1]
  · intro c
    rw [encode_eq_cons]
    show decodeWssBinaryMessage (0x4D :: 0x55 :: c :: 1 :: 0 :: 0 :: 0 :: 0 :: 0 :: 1 :: ((seq >>> 24) &&& 0xFF) :: ((seq >>> 16) &&& 0xFF) :: ((seq >>> 8) &&& 0xFF) :: (seq &&& 0xFF) :: 1 :: 0 :: 0 :: 0 :: 0 :: 0 :: ((computeCRC32 p >>> 24) &&& 0xFF) :: ((computeCRC32 p >>> 16) &&& 0xFF) :: ((computeCRC32 p >>> 8) &&& 0xFF) :: (computeCRC32 p &&& 0xFF) :: (((p.length % (2 ^ 32)) >>> 24) &&& 0xFF) :: (((p.length % (2 ^ 32)) >>> 16) &&& 0xFF) :: (((p.length % (2 ^ 32)) >>> 8) &&& 0xFF) :: ((p.length % (2 ^ 32)) &&& 0xFF) :: p) = some p
    rw [decodeMsg_cons, if_neg (by simp), if_neg (by rw [readBE32_digits _ hLlt, hL]; exact fun h => h rfl), if_neg (by rw [readBE32_digits _ hC]; exact fun h => h rfl)]
    simp
  · intro q b c hpq hb hc hcne
    subst hpq
    rw [encode_eq_cons]
    show decodeWssBinaryMessage (0x4D :: 0x55 :: 1 :: 1 :: 0 :: 0 :: 0 :: 0 :: 0 :: 1 :: ((seq >>> 24) &&& 0xFF) :: ((seq >>> 16) &&& 0xFF) :: ((seq >>> 8) &&& 0xFF) :: (seq &&& 0xFF) :: 1 :: 0 :: 0 :: 0 :: 0 :: 0 :: ((computeCRC32 (q ++ [b]) >>> 24) &&& 0xFF) :: ((computeCRC32 (q ++ [b]) >>> 16) &&& 0xFF) :: ((computeCRC32 (q ++ [b]) >>> 8) &&& 0xFF) :: (computeCRC32 (q ++ [b]) &&& 0xFF) :: ((((q ++ [b]).length % (2 ^ 32)) >>> 24) &&& 0xFF) :: ((((q ++ [b]).length % (2 ^ 32)) >>> 16) &&& 0xFF) :: ((((q ++ [b]).length % (2 ^ 32)) >>> 8) &&& 0xFF) :: (((q ++ [b]).length % (2 ^ 32)) &&& 0xFF) :: ((q ++ [b]).set q.length c)) = none
    rw [set_at_length, decodeMsg_cons, if_neg (by simp),
      if_neg (by rw [readBE32_digits _ hLlt, hL]; simp),
      if_pos (by
        rw [readBE32_digits _ (computeCRC32_lt _)]
        exact Ne.symm (crc_last_byte_ne q b c hb hc (fun h => hcne h.symm)))]

/-- Witness for C3's amended theorem: a concrete three-byte payload, with the
magic-byte rejection conjunct applied at c = 0. -/
theorem frame_decode_spec_witness :
    ([1, 2, 3] : List Nat).length < 2 ^ 32 ∧
      decodeWssBinaryMessage (mutateAt (encodeWssBinaryMessage [1, 2, 3] 5) 0 0) = none :=
  ⟨by norm_num, (frame_decode_spec [1, 2, 3] 5 (by norm_num)).2.1 0 (by decide)⟩

end AgentCP
